import Mathlib

/-!
Verification of the Combat-Logger repository's attribution engine.

The definitions below are a shallow embedding of
`src/improved_acmi_analyzer.py` (class `ImprovedCombatAnalyzer`) and of the
legacy `src/acmi_analyzer.py` (class `CombatAnalyzer`).  Python dictionaries
(with their insertion-order iteration) are modelled as association lists,
Python floats as exact rationals, and `int()` truncation of the nonnegative
quantities involved as `Int.floor` followed by `Int.toNat`.
-/

set_option maxHeartbeats 1000000

/-- Object category as exposed by pyacmi's `is_plane` / `is_missile` flags. -/
inductive ObjKind : Type
  | plane
  | missile
  | other
deriving DecidableEq

/-- One pyacmi object record: the fields the analyzers read.  `name`,
`country`, `group` model the values returned by `json().get(...)` (with the
source's `'Unknown'` defaults already applied by the ingestion adapter);
`pilotRaw` models `pilot()` (Python-falsy empty string handled by
`getPilot`); `objId` and `parentId` model `json()['ID']` / `json().get('Parent')`
and are used only by the legacy analyzer. -/
structure ObjRecord : Type where
  objId : String
  kind : ObjKind
  name : String
  coalition : String
  country : String
  group : String
  pilotRaw : Option String
  parentId : Option String
deriving DecidableEq

def isPlane (o : ObjRecord) : Bool := o.kind == ObjKind.plane

def isMissileObj (o : ObjRecord) : Bool := o.kind == ObjKind.missile

/-- `pilot()` with Python truthiness: `None` and `""` both count as missing. -/
def getPilot (o : ObjRecord) : Option String :=
  match o.pilotRaw with
  | none => none
  | some p => if p == "" then none else some p

/-- Substring helper: does `pat` occur at the start of `hay`?  (Character-list
level, mirroring Python's `in` operator on strings.) -/
def charsStart : List Char → List Char → Bool
  | [], _ => true
  | _ :: _, [] => false
  | a :: as, b :: bs => a == b && charsStart as bs

/-- Does `pat` occur anywhere inside `hay`? -/
def charsHave (pat : List Char) : List Char → Bool
  | [] => charsStart pat []
  | c :: rest => charsStart pat (c :: rest) || charsHave pat rest

/-- Python `pat in s` on strings. -/
def containsStr (s pat : String) : Bool := charsHave pat.data s.data

/-- `self.air_to_air_missiles`: designator pattern ↦ family label
(improved_acmi_analyzer.py lines 37-47). -/
def airToAirMissiles : List (String × String) :=
  [("AIM_120", "AMRAAM"), ("AIM-9L", "Sidewinder"), ("AIM-9M", "Sidewinder"),
   ("AIM-9X", "Sidewinder"), ("AIM-7", "Sparrow"), ("R-27", "Alamo"),
   ("R-73", "Archer"), ("R-77", "Adder"), ("P_24R", "Apex")]

/-- `is_air_to_air_missile`: any designator key occurs in the missile name. -/
def isAirToAirMissile (m : ObjRecord) : Bool :=
  airToAirMissiles.any (fun kv => containsStr m.name kv.1)

/-- `is_fighter_aircraft` (improved_acmi_analyzer.py lines 180-183). -/
def fighterList : List String :=
  ["F-16", "F-4", "F-18", "FA-18", "MiG-21", "MiG-23", "MiG-25", "Su-27"]

def isFighterAircraft (aircraftType : String) : Bool :=
  fighterList.any (fun f => containsStr aircraftType f)

/-- `can_carry_missile` (improved_acmi_analyzer.py lines 185-198). -/
def westernAircraft : List String := ["F-16", "F-4", "F-18", "FA-18"]
def easternAircraft : List String := ["MiG-21", "MiG-23", "MiG-25", "Su-27"]
def westernMissiles : List String := ["AIM_120", "AIM-9L", "AIM-9M", "AIM-9X", "AIM-7"]
def easternMissiles : List String := ["R-27", "R-73", "R-77", "P_24R"]

def canCarryMissile (aircraftType missileType : String) : Bool :=
  let isWA := westernAircraft.any (fun ac => containsStr aircraftType ac)
  let isEA := easternAircraft.any (fun ac => containsStr aircraftType ac)
  let isWM := westernMissiles.any (fun ms => containsStr missileType ms)
  let isEM := easternMissiles.any (fun ms => containsStr missileType ms)
  (isWA && isWM) || (isEA && isEM)

/-- The per-pilot statistics record (the improved analyzer's per-pilot dict). -/
structure PilotStats : Type where
  pilot_name : String
  aircraft_type : String
  coalition : String
  country : String
  group : String
  missiles_fired : ℕ
  air_to_air_kills : ℕ
  deaths : ℕ
  survived : Bool
  missile_types_used : List String
  estimated_hit_rate : ℚ
deriving DecidableEq

/-- The defaultdict's factory value (improved_acmi_analyzer.py lines 22-34). -/
def defaultPilotStats : PilotStats :=
  { pilot_name := "", aircraft_type := "", coalition := "", country := "",
    group := "", missiles_fired := 0, air_to_air_kills := 0, deaths := 0,
    survived := false, missile_types_used := [], estimated_hit_rate := 0 }

/-- `self.pilot_stats`: a Python dict modelled as an insertion-ordered
association list with unique keys. -/
abbrev Stats : Type := List (String × PilotStats)

def lookupStat (st : Stats) (p : String) : Option PilotStats :=
  match st with
  | [] => none
  | e :: rest => if e.1 == p then some e.2 else lookupStat rest p

/-- In-place update of the (unique) entry with key `p`; no-op when absent. -/
def updateStat (st : Stats) (p : String) (f : PilotStats → PilotStats) : Stats :=
  match st with
  | [] => []
  | e :: rest => if e.1 == p then (e.1, f e.2) :: rest else e :: updateStat rest p f

def firedOf (st : Stats) (p : String) : ℕ :=
  ((lookupStat st p).map (fun e => e.missiles_fired)).getD 0

def deathsOf (st : Stats) (p : String) : ℕ :=
  ((lookupStat st p).map (fun e => e.deaths)).getD 0

def killsOf (st : Stats) (p : String) : ℕ :=
  ((lookupStat st p).map (fun e => e.air_to_air_kills)).getD 0

def typesOf (st : Stats) (p : String) : List String :=
  ((lookupStat st p).map (fun e => e.missile_types_used)).getD []

def totalFired (st : Stats) : ℕ :=
  (st.map (fun e => e.2.missiles_fired)).sum

/-- `analyze_pilots` (improved_acmi_analyzer.py lines 95-130): one step of the
loop body for one aircraft record.  `isRemoved` records whether the aircraft
came from the removed set (Python tests `aircraft not in alive_aircraft`,
identity-based membership, and alive/removed objects are disjoint). -/
def initPilot (alivePilots : List String) (isRemoved : Bool) (st : Stats)
    (o : ObjRecord) : Stats :=
  match getPilot o with
  | none => st
  | some p =>
    let st1 :=
      match lookupStat st p with
      | some _ => st
      | none => st ++ [(p,
          { pilot_name := p, aircraft_type := o.name, coalition := o.coalition,
            country := o.country, group := o.group, missiles_fired := 0,
            air_to_air_kills := 0, deaths := 0,
            survived := alivePilots.contains p, missile_types_used := [],
            estimated_hit_rate := 0 })]
    if isRemoved then updateStat st1 p (fun e => { e with deaths := e.deaths + 1 })
    else st1

def analyzePilots (aliveAircraft removedAircraft : List ObjRecord) : Stats :=
  let ap := aliveAircraft.filterMap getPilot
  let st := aliveAircraft.foldl (initPilot ap false) []
  removedAircraft.foldl (initPilot ap true) st

/-- Python-dict grouping: `defaultdict(list)` keyed by `key x`, preserving
first-seen key order and per-key element order. -/
def groupInsert (k : String) (x : α) : List (String × List α) → List (String × List α)
  | [] => [(k, [x])]
  | e :: rest => if e.1 == k then (e.1, e.2 ++ [x]) :: rest else e :: groupInsert k x rest

def groupByKey (key : α → String) (l : List α) : List (String × List α) :=
  l.foldl (fun acc x => groupInsert (key x) x acc) []

/-- Python-dict counting: `defaultdict(int)` incremented per element. -/
def countInsert (k : String) : List (String × ℕ) → List (String × ℕ)
  | [] => [(k, 1)]
  | e :: rest => if e.1 == k then (e.1, e.2 + 1) :: rest else e :: countInsert k rest

def groupCounts (key : α → String) (l : List α) : List (String × ℕ) :=
  l.foldl (fun acc x => countInsert (key x) acc) []

/-- `coalition_pilots` lookup (improved_acmi_analyzer.py lines 143-148):
pilots of coalition `c` whose first-seen aircraft type is a fighter, in
`pilot_stats` iteration (= insertion) order. -/
def pilotsOfCoalition (st : Stats) (c : String) : List String :=
  (st.filter (fun e => isFighterAircraft e.2.aircraft_type && e.2.coalition == c)).map
    (fun e => e.1)

/-- `self.pilot_stats[p]['aircraft_type']` for a pilot already present. -/
def aircraftTypeOf (st : Stats) (p : String) : String :=
  ((lookupStat st p).getD defaultPilotStats).aircraft_type

/-- The per-pilot mutation of lines 176-178: add `n` launches and record the
missile's type string (append-if-absent, list used as a set). -/
def addBump (n : ℕ) (mtype : String) (e : PilotStats) : PilotStats :=
  { e with missiles_fired := e.missiles_fired + n,
           missile_types_used :=
             if e.missile_types_used.contains mtype then e.missile_types_used
             else e.missile_types_used ++ [mtype] }

/-- The record a defaultdict access materializes before the mutation runs. -/
def newFiredRec (n : ℕ) (mtype : String) : PilotStats :=
  { defaultPilotStats with missiles_fired := n, missile_types_used := [mtype] }

/-- Lines 176-178: add `n` launches to pilot `p` and record the missile's type
string.  A missing key materializes the defaultdict factory record first. -/
def addMissiles (st : Stats) (p : String) (n : ℕ) (mtype : String) : Stats :=
  match lookupStat st p with
  | some _ => updateStat st p (addBump n mtype)
  | none => st ++ [(p, newFiredRec n mtype)]

/-- The `for i, pilot in enumerate(capable_pilots)` loop (lines 171-178),
with `per = count // K`, `rem = count % K` precomputed. -/
def distributeAux (mtype : String) (per rem : ℕ) : ℕ → List String → Stats → Stats
  | _, [], st => st
  | i, p :: ps, st =>
      distributeAux mtype per rem (i + 1) ps
        (addMissiles st p (per + if i < rem then 1 else 0) mtype)

/-- Apportion `count` launches of `mtype` across `capable` (lines 167-178). -/
def distribute (st : Stats) (capable : List String) (mtype : String) (count : ℕ) : Stats :=
  distributeAux mtype (count / capable.length) (count % capable.length) 0 capable st

/-- `estimate_missile_usage` (improved_acmi_analyzer.py lines 132-178).
`coalition_pilots` and all `aircraft_type` lookups use the entry state `st`:
the loop never mutates the fields those reads depend on. -/
def estimateMissileUsage (st : Stats) (a2a : List ObjRecord) : Stats :=
  let coalitionMissiles := groupByKey (fun m => m.coalition) a2a
  coalitionMissiles.foldl (fun acc cms =>
    let pilots := pilotsOfCoalition st cms.1
    if pilots.isEmpty then acc else
    let missileTypes := groupCounts (fun m => m.name) cms.2
    missileTypes.foldl (fun acc2 tc =>
      let capable := pilots.filter (fun p => canCarryMissile (aircraftTypeOf st p) tc.1)
      if capable.isEmpty then acc2 else
      distribute acc2 capable tc.1 tc.2) acc) st

/-- `coalition_losses` (improved_acmi_analyzer.py lines 204-208). -/
def coalitionLosses (removedAircraft : List ObjRecord) (c : String) : ℕ :=
  (removedAircraft.filter (fun o => o.coalition == c)).length

/-- The hardcoded opposing-coalition rule (line 216). -/
def enemyOf (c : String) : String := if c == "Enemies" then "Allies" else "Enemies"

/-- `estimated_hit_rate = 0.3` (line 234), as an exact rational (stored in
reduced literal form; `hitRate_eq` below shows it equals `3 / 10`). -/
def hitRate : ℚ := Rat.mk' 3 10 (by decide) (by decide)

/-- `calculate_kill_estimates` loop body for one pilot (lines 211-241).  The
loop reads only `coalition` and `missiles_fired` of other entries, fields it
never writes, so each entry is updated against the entry state `st`.
Under the exact-rational reading of the source's float arithmetic,
`int(missiles_fired * 0.3)` is `⌊3m/10⌋` and
`int(enemy_losses * (missiles_fired / total))` is `⌊L*m/total⌋`; both are
natural-number divisions here, and the bridge lemmas `natDiv_cast_eq_floorA`
and `natDiv_cast_eq_floorB` relate them to the rational floor formulas. -/
def killUpdate (st : Stats) (removedAircraft : List ObjRecord) (e : PilotStats) :
    PilotStats :=
  if e.missiles_fired == 0 then e else
  let enemyLosses := coalitionLosses removedAircraft (enemyOf e.coalition)
  if enemyLosses == 0 then e else
  let shooters := st.filter (fun q => q.2.coalition == e.coalition && 0 < q.2.missiles_fired)
  if shooters.isEmpty then e else
  let total : ℕ := (shooters.map (fun q => q.2.missiles_fired)).sum
  let kills := min ((e.missiles_fired * 3) / 10)
                   ((enemyLosses * e.missiles_fired) / total)
  { e with air_to_air_kills := kills, estimated_hit_rate := hitRate }

def calculateKillEstimates (st : Stats) (removedAircraft : List ObjRecord) : Stats :=
  st.map (fun e => (e.1, killUpdate st removedAircraft e.2))

/-- Pilot-and-attribution stages of `analyze_combat_data` (lines 60-82). -/
def attributionStats (alive removed : List ObjRecord) : Stats :=
  let aliveAircraft := alive.filter isPlane
  let removedAircraft := removed.filter isPlane
  let missiles := removed.filter isMissileObj
  let a2a := missiles.filter isAirToAirMissile
  estimateMissileUsage (analyzePilots aliveAircraft removedAircraft) a2a

/-- `analyze_combat_data` (improved_acmi_analyzer.py lines 60-87): the full
pipeline from the alive/removed object sets to the final pilot statistics. -/
def analyzeCombatData (alive removed : List ObjRecord) : Stats :=
  calculateKillEstimates (attributionStats alive removed) (removed.filter isPlane)

/-- `coalitionTotal` of the claims: sum of `missiles_fired` over same-coalition
pilots that fired at least one missile (lines 222-230). -/
def coalitionTotalFired (st : Stats) (c : String) : ℕ :=
  (((st.filter (fun q => q.2.coalition == c && 0 < q.2.missiles_fired))).map
    (fun q => q.2.missiles_fired)).sum

/-- The kill formula as the spec and claims state it, in exact arithmetic:
`max(0, min(floor(m*h), floor(L*(m/total))))`. -/
def specKillEstimate (m total L : ℕ) (h : ℚ) : ℤ :=
  max 0 (min (Int.floor ((m : ℚ) * h)) (Int.floor ((L : ℚ) * ((m : ℚ) / (total : ℚ)))))

/-! ## Legacy analyzer (`src/acmi_analyzer.py`, class `CombatAnalyzer`) -/

/-- Per-pilot dict of the legacy analyzer (acmi_analyzer.py lines 20-36).
Fields that the analysis never reads nor writes after initialization
(`kills_list`, `death_cause`, `flight_time`, `max_altitude`, `max_speed`)
are omitted; `missiles_fired_list` keeps the missile-type strings. -/
structure LegacyStats : Type where
  pilot_name : String
  aircraft_type : String
  coalition : String
  country : String
  group : String
  missiles_fired : ℕ
  missiles_hit : ℕ
  air_to_air_kills : ℕ
  deaths : ℕ
  missiles_fired_list : List String
deriving DecidableEq

abbrev LStats : Type := List (String × LegacyStats)

def lookupLegacy (st : LStats) (p : String) : Option LegacyStats :=
  match st with
  | [] => none
  | e :: rest => if e.1 == p then some e.2 else lookupLegacy rest p

def updateLegacy (st : LStats) (p : String) (f : LegacyStats → LegacyStats) : LStats :=
  match st with
  | [] => []
  | e :: rest => if e.1 == p then (e.1, f e.2) :: rest else e :: updateLegacy rest p f

def legacyFiredOf (st : LStats) (p : String) : ℕ :=
  ((lookupLegacy st p).map (fun e => e.missiles_fired)).getD 0

def legacyKillsOf (st : LStats) (p : String) : ℕ :=
  ((lookupLegacy st p).map (fun e => e.air_to_air_kills)).getD 0

/-- `analyze_aircraft` loop body (acmi_analyzer.py lines 82-111). -/
def legacyInitPilot (isRemoved : Bool) (st : LStats) (o : ObjRecord) : LStats :=
  match getPilot o with
  | none => st
  | some p =>
    let st1 :=
      match lookupLegacy st p with
      | some _ => st
      | none => st ++ [(p,
          { pilot_name := p, aircraft_type := o.name, coalition := o.coalition,
            country := o.country, group := o.group, missiles_fired := 0,
            missiles_hit := 0, air_to_air_kills := 0, deaths := 0,
            missiles_fired_list := [] })]
    if isRemoved then updateLegacy st1 p (fun e => { e with deaths := e.deaths + 1 })
    else st1

def legacyAnalyzeAircraft (aliveAircraft removedAircraft : List ObjRecord) : LStats :=
  removedAircraft.foldl (legacyInitPilot true)
    (aliveAircraft.foldl (legacyInitPilot false) [])

/-- The air-to-air designator list of the legacy analyzer (line 117). -/
def legacyA2AList : List String :=
  ["AIM_120", "AIM-9L", "AIM-9M", "AIM-9X", "AIM-7", "R-27", "R-73", "R-77", "P_24R"]

def legacyIsA2A (m : ObjRecord) : Bool :=
  legacyA2AList.any (fun aam => containsStr m.name aam)

/-- `find_pilot_by_object_id` (lines 139-150): first object whose ID matches
and which is a plane; its `pilot()` is returned as-is. -/
def findPilotByObjectId (allObjs : List ObjRecord) (oid : String) : Option String :=
  ((allObjs.find? (fun o => o.objId == oid && isPlane o)).bind (fun o => o.pilotRaw))

/-- Python truthiness of the `Parent` field and of the found pilot name. -/
def truthy : Option String → Option String
  | none => none
  | some s => if s == "" then none else some s

def legacyDefault : LegacyStats :=
  { pilot_name := "", aircraft_type := "", coalition := "", country := "",
    group := "", missiles_fired := 0, missiles_hit := 0, air_to_air_kills := 0,
    deaths := 0, missiles_fired_list := [] }

/-- Lines 132-137: count one launch for the parent pilot (defaultdict access
materializes a default record for an unknown pilot). -/
def legacyAddFired (st : LStats) (p : String) (mname : String) : LStats :=
  match lookupLegacy st p with
  | some _ => updateLegacy st p (fun e =>
      { e with missiles_fired := e.missiles_fired + 1,
               missiles_fired_list := e.missiles_fired_list ++ [mname] })
  | none => st ++ [(p, { legacyDefault with
      missiles_fired := 1, missiles_fired_list := [mname] })]

/-- `analyze_missiles` (lines 113-137). -/
def legacyAnalyzeMissiles (allObjs : List ObjRecord) (st : LStats)
    (missiles : List ObjRecord) : LStats :=
  missiles.foldl (fun acc m =>
    if legacyIsA2A m then
      match truthy m.parentId with
      | none => acc
      | some pid =>
        match truthy (findPilotByObjectId allObjs pid) with
        | none => acc
        | some p => legacyAddFired acc p m.name
    else acc) st

/-- `calculate_kill_statistics` loop body (lines 164-174); it reads only
`coalition` and `missiles_fired` of other entries, which it never writes. -/
def legacyKillUpdate (st : LStats) (removedAircraft : List ObjRecord)
    (e : LegacyStats) : LegacyStats :=
  if 0 < e.missiles_fired then
    let enemyLosses := coalitionLosses removedAircraft (enemyOf e.coalition)
    if 0 < enemyLosses && 0 < e.missiles_fired then
      let shooters := st.filter (fun q =>
        q.2.coalition == e.coalition && 0 < q.2.missiles_fired)
      let q0 := enemyLosses / shooters.length
      let q1 := if q0 == 0 then 1 else q0
      { e with air_to_air_kills := max 0 (min (e.missiles_fired / 2) q1) }
    else e
  else e

def legacyCalculateKills (st : LStats) (removedAircraft : List ObjRecord) : LStats :=
  st.map (fun e => (e.1, legacyKillUpdate st removedAircraft e.2))

/-- `run_analysis` of the legacy analyzer (lines 267-278): objects are
categorized from `alive ++ removed` in order, so planes and missiles each
appear alive-first. -/
def legacyAnalyze (alive removed : List ObjRecord) : LStats :=
  let aliveAircraft := alive.filter isPlane
  let removedAircraft := removed.filter isPlane
  let missiles := (alive ++ removed).filter isMissileObj
  let st1 := legacyAnalyzeAircraft aliveAircraft removedAircraft
  let st2 := legacyAnalyzeMissiles (alive ++ removed) st1 missiles
  legacyCalculateKills st2 removedAircraft

def legacyCoalitionTotal (st : LStats) (c : String) : ℕ :=
  ((st.filter (fun q => q.2.coalition == c && 0 < q.2.missiles_fired)).map
    (fun q => q.2.missiles_fired)).sum

/-! ## Report summary output (improved analyzer, lines 243-351) -/

/-- Per-coalition accumulator of `generate_report` (lines 307-321). -/
structure CoalitionAgg : Type where
  pilots : ℕ
  survivors : ℕ
  missiles : ℕ
  kills : ℕ
  deaths : ℕ
deriving DecidableEq

def bumpAgg (c : String) (f : CoalitionAgg → CoalitionAgg) :
    List (String × CoalitionAgg) → List (String × CoalitionAgg)
  | [] => [(c, f { pilots := 0, survivors := 0, missiles := 0, kills := 0, deaths := 0 })]
  | e :: rest => if e.1 == c then (e.1, f e.2) :: rest else e :: bumpAgg c f rest

def coalitionBreakdown (st : Stats) : List (String × CoalitionAgg) :=
  st.foldl (fun acc e => bumpAgg e.2.coalition (fun a =>
    { pilots := a.pilots + 1,
      survivors := a.survivors + (if e.2.survived then 1 else 0),
      missiles := a.missiles + e.2.missiles_fired,
      kills := a.kills + e.2.air_to_air_kills,
      deaths := a.deaths + e.2.deaths }) acc) []

/-- Exact rational value of a printed ratio `a / b` (the program prints an
IEEE approximation of this value; `mkRat` is the normalized rational). -/
def ratioQ (a b : ℕ) : ℚ := mkRat a b

/-- Exact rational value of a printed percentage `a / b * 100`. -/
def pctQ (a b : ℕ) : ℚ := mkRat (a * 100) b

/-- Exact rational value of `q * 100` (per-pilot hit-rate percentage). -/
def times100 (q : ℚ) : ℚ := mkRat (q.num * 100) q.den

/-- Every session-derived numeric quantity the improved analyzer prints in
`analyze_combat_data` / `generate_report` or exports in `export_to_json`
(counts, per-pilot figures and ratios, summary totals, per-coalition
breakdown), in print order.  The pass-through `global_json()` metadata is
input echo, not derived from the session's munitions, and is not included. -/
def outputNumbersQ (alive removed : List ObjRecord) : List ℚ :=
  let aliveAircraft := alive.filter isPlane
  let removedAircraft := removed.filter isPlane
  let missiles := removed.filter isMissileObj
  let a2a := missiles.filter isAirToAirMissile
  let st := analyzeCombatData alive removed
  let counts : List ℚ :=
    [((aliveAircraft.length + removedAircraft.length : ℕ) : ℚ),
     (aliveAircraft.length : ℚ), (removedAircraft.length : ℚ),
     (missiles.length : ℚ), (a2a.length : ℚ)]
  let perPilot : List ℚ := (st.map (fun e =>
      [(e.2.missiles_fired : ℚ), (e.2.air_to_air_kills : ℚ), (e.2.deaths : ℚ),
       ratioQ e.2.air_to_air_kills (max 1 e.2.deaths),
       e.2.estimated_hit_rate] ++
      (if 0 < e.2.missiles_fired then [times100 e.2.estimated_hit_rate] else []))).flatten
  let totalPilots := st.length
  let survivors := (st.filter (fun e => e.2.survived)).length
  let totalMissiles := totalFired st
  let totalKills := (st.map (fun e => e.2.air_to_air_kills)).sum
  let totalDeaths := (st.map (fun e => e.2.deaths)).sum
  let summary : List ℚ :=
    [(totalPilots : ℚ), (survivors : ℚ), ((totalPilots - survivors : ℕ) : ℚ),
     (totalMissiles : ℚ), (totalKills : ℚ), (totalDeaths : ℚ)] ++
    (if 0 < totalMissiles then [pctQ totalKills totalMissiles] else [])
  let perCoalition : List ℚ := ((coalitionBreakdown st).map (fun e =>
      [(e.2.pilots : ℚ), (e.2.survivors : ℚ), (e.2.missiles : ℚ),
       (e.2.kills : ℚ), (e.2.deaths : ℚ)] ++
      (if 0 < e.2.deaths then [ratioQ e.2.kills e.2.deaths] else []) ++
      (if 0 < e.2.missiles then [pctQ e.2.kills e.2.missiles] else []))).flatten
  counts ++ perPilot ++ summary ++ perCoalition

/-- The session-level unattributed-munition count in the spec's sense:
removed munitions whose family is unresolved by the classifier, plus removed
air-to-air munitions belonging to a `(coalition, type)` group with zero
eligible capable pilots. -/
def specUnattributedCount (alive removed : List ObjRecord) : ℕ :=
  let missiles := removed.filter isMissileObj
  let a2a := missiles.filter isAirToAirMissile
  let st := analyzePilots (alive.filter isPlane) (removed.filter isPlane)
  (missiles.filter (fun m => !isAirToAirMissile m)).length
    + (((groupByKey (fun m => m.coalition) a2a)).map (fun cms =>
      ((groupCounts (fun m => m.name) cms.2).map (fun tc =>
        if ((pilotsOfCoalition st cms.1).filter
            (fun p => canCarryMissile (aircraftTypeOf st p) tc.1)).isEmpty
        then tc.2 else 0)).sum)).sum

/-- Total launch count apportioned by `estimateMissileUsage` when started from
`st`: the groups that have at least one eligible capable pilot. -/
def attributableSum (st : Stats) (a2a : List ObjRecord) : ℕ :=
  ((groupByKey (fun m => m.coalition) a2a).map (fun cms =>
    if (pilotsOfCoalition st cms.1).isEmpty then 0 else
    ((groupCounts (fun m => m.name) cms.2).map (fun tc =>
      if ((pilotsOfCoalition st cms.1).filter
          (fun p => canCarryMissile (aircraftTypeOf st p) tc.1)).isEmpty
      then 0 else tc.2)).sum)).sum

/-! ## Concrete sessions used by counterexamples and witnesses -/

def mkPlane (oid pname acType coal : String) : ObjRecord :=
  { objId := oid, kind := ObjKind.plane, name := acType, coalition := coal,
    country := "USA", group := "G1", pilotRaw := some pname, parentId := none }

def mkMissile (oid mname coal : String) : ObjRecord :=
  { objId := oid, kind := ObjKind.missile, name := mname, coalition := coal,
    country := "USA", group := "G1", pilotRaw := none, parentId := none }

def mkMissileP (oid mname coal parent : String) : ObjRecord :=
  { objId := oid, kind := ObjKind.missile, name := mname, coalition := coal,
    country := "USA", group := "G1", pilotRaw := none, parentId := some parent }

/-- C4 counterexample session: pilot "B" appears before pilot "A" in the
alive-aircraft list; five Blue AIM_120 launches with no parent data. -/
def cex4Alive : List ObjRecord :=
  [mkPlane "1" "B" "F-16C" "Blue", mkPlane "2" "A" "F-16C" "Blue"]

def cex4Removed : List ObjRecord :=
  [mkMissile "m1" "AIM_120C" "Blue", mkMissile "m2" "AIM_120C" "Blue",
   mkMissile "m3" "AIM_120C" "Blue", mkMissile "m4" "AIM_120C" "Blue",
   mkMissile "m5" "AIM_120C" "Blue"]

/-- C4 amended scenario: same session but "A" is seen first. -/
def sc4Alive : List ObjRecord :=
  [mkPlane "1" "A" "F-16C" "Blue", mkPlane "2" "B" "F-16C" "Blue"]

/-- C7 counterexample session: one capable pilot, one removed AIM-9M. -/
def cex7Alive : List ObjRecord := [mkPlane "1" "Q" "F-16C" "Blue"]

def cex7Removed : List ObjRecord := [mkMissile "m1" "AIM-9M" "Blue"]

/-- C6 counterexample session: five Blue launches with no eligible pilot
(coalition Blue's only pilot flies a C-130), one attributable Red launch. -/
def cex6Alive : List ObjRecord :=
  [mkPlane "1" "P" "C-130" "Blue", mkPlane "2" "Q" "F-16C" "Red"]

def cex6Removed : List ObjRecord :=
  [mkMissile "m1" "AIM_120C" "Blue", mkMissile "m2" "AIM_120C" "Blue",
   mkMissile "m3" "AIM_120C" "Blue", mkMissile "m4" "AIM_120C" "Blue",
   mkMissile "m5" "AIM_120C" "Blue", mkMissile "m6" "AIM_120C" "Red"]

/-- C8 counterexample session: a pilot fires missiles but the opposing
coalition loses no aircraft. -/
def cex8Alive : List ObjRecord := [mkPlane "1" "R" "F-16C" "Allies"]

def cex8Removed : List ObjRecord := [mkMissile "m1" "AIM_120C" "Allies"]

/-- C3 counterexample session (legacy analyzer): two Allies pilots fire four
parent-attributed missiles each; the Enemies coalition loses one aircraft. -/
def cex3Alive : List ObjRecord :=
  [mkPlane "1" "P1" "F-16C" "Allies", mkPlane "2" "P2" "F-16C" "Allies"]

def cex3Removed : List ObjRecord :=
  [mkPlane "3" "E1" "MiG-29" "Enemies",
   mkMissileP "m1" "AIM_120C" "Allies" "1", mkMissileP "m2" "AIM_120C" "Allies" "1",
   mkMissileP "m3" "AIM_120C" "Allies" "1", mkMissileP "m4" "AIM_120C" "Allies" "1",
   mkMissileP "m5" "AIM_120C" "Allies" "2", mkMissileP "m6" "AIM_120C" "Allies" "2",
   mkMissileP "m7" "AIM_120C" "Allies" "2", mkMissileP "m8" "AIM_120C" "Allies" "2"]

/-- Witness session for the confirmed claims: pilot "W" (Allies, F-16C) with
two attributable launches, one Enemies aircraft lost. -/
def witAlive : List ObjRecord := [mkPlane "1" "W" "F-16C" "Allies"]

def witRemoved : List ObjRecord :=
  [mkPlane "2" "E1" "MiG-29" "Enemies",
   mkMissile "m1" "AIM_120C" "Allies", mkMissile "m2" "AIM_120C" "Allies"]

def rateOf (st : Stats) (p : String) : ℚ :=
  ((lookupStat st p).map (fun e => e.estimated_hit_rate)).getD 0

/-- The final record of pilot "W" in the witness session. -/
def witW : PilotStats :=
  { pilot_name := "W", aircraft_type := "F-16C", coalition := "Allies",
    country := "USA", group := "G1", missiles_fired := 2, air_to_air_kills := 0,
    deaths := 0, survived := true, missile_types_used := ["AIM_120C"],
    estimated_hit_rate := hitRate }

/-- The final record of the non-fighter pilot "P" in the C6 session. -/
def witP : PilotStats :=
  { pilot_name := "P", aircraft_type := "C-130", coalition := "Blue",
    country := "USA", group := "G1", missiles_fired := 0, air_to_air_kills := 0,
    deaths := 0, survived := true, missile_types_used := [],
    estimated_hit_rate := 0 }

/-- Concrete stats used by the apportionment witness. -/
def wit1St : Stats := [("A", defaultPilotStats), ("B", defaultPilotStats)]

/-- The final record of pilot "Q" in the C7 session. -/
def witQ7 : PilotStats :=
  { pilot_name := "Q", aircraft_type := "F-16C", coalition := "Blue",
    country := "USA", group := "G1", missiles_fired := 1, air_to_air_kills := 0,
    deaths := 0, survived := true, missile_types_used := ["AIM-9M"],
    estimated_hit_rate := 0 }

/-- The fields the pilot-analysis stage leaves at their initial values. -/
def FreshAttrib (e : PilotStats) : Prop :=
  e.missiles_fired = 0 ∧ e.air_to_air_kills = 0 ∧
  e.missile_types_used = [] ∧ e.estimated_hit_rate = 0

/-! ## Rational bridge lemmas -/

theorem hitRate_eq : hitRate = 3 / 10 := by
  rw [hitRate, Rat.mk'_eq_divInt, Rat.divInt_eq_div]
  norm_num

theorem natDiv_cast_eq_floorB (L m T : ℕ) :
    (((L * m) / T : ℕ) : ℤ) = Int.floor ((L : ℚ) * ((m : ℚ) / (T : ℚ))) := by
  have h1 : (L : ℚ) * ((m : ℚ) / (T : ℚ)) = ((L * m : ℕ) : ℚ) / ((T : ℕ) : ℚ) := by
    push_cast
    ring
  rw [h1, Rat.floor_natCast_div_natCast]
  exact (Int.ofNat_div _ _).symm

theorem natDiv_cast_eq_floorA (m : ℕ) :
    (((m * 3) / 10 : ℕ) : ℤ) = Int.floor ((m : ℚ) * hitRate) := by
  rw [hitRate_eq,
    show (3 : ℚ) / 10 = ((3 : ℕ) : ℚ) / ((10 : ℕ) : ℚ) by norm_num]
  exact natDiv_cast_eq_floorB m 3 10

/-! ## Association-list lemmas -/

theorem lookupStat_eq_none_iff (st : Stats) (p : String) :
    lookupStat st p = none ↔ p ∉ st.map Prod.fst := by
  induction st with
  | nil => simp [lookupStat]
  | cons e rest ih =>
    by_cases h : e.1 = p
    · simp [lookupStat, h]
    · simp [lookupStat, h, ih, Ne.symm h]

theorem lookupStat_some_mem {st : Stats} {p : String} {v : PilotStats}
    (h : lookupStat st p = some v) : (p, v) ∈ st := by
  induction st with
  | nil => simp [lookupStat] at h
  | cons e rest ih =>
    obtain ⟨a, b⟩ := e
    by_cases he : a = p
    · simp only [lookupStat] at h
      rw [if_pos (by simpa using he)] at h
      simp only [Option.some_inj] at h
      subst he
      subst h
      exact List.mem_cons_self _ _
    · simp [lookupStat, he] at h
      exact List.mem_cons_of_mem _ (ih h)

theorem mem_lookupStat_of_nodup {st : Stats} {p : String} {v : PilotStats}
    (hnd : (st.map Prod.fst).Nodup) (h : (p, v) ∈ st) :
    lookupStat st p = some v := by
  induction st with
  | nil => simp at h
  | cons e rest ih =>
    simp only [List.map_cons, List.nodup_cons] at hnd
    rcases List.mem_cons.mp h with h1 | h1
    · subst h1
      simp [lookupStat]
    · have hne : e.1 ≠ p := by
        intro hc
        exact hnd.1 (hc ▸ (List.mem_map.mpr ⟨_, h1, rfl⟩))
      simp [lookupStat, hne, ih hnd.2 h1]

theorem lookupStat_updateStat_self (st : Stats) (p : String)
    (f : PilotStats → PilotStats) :
    lookupStat (updateStat st p f) p = (lookupStat st p).map f := by
  induction st with
  | nil => simp [lookupStat, updateStat]
  | cons e rest ih =>
    by_cases h : e.1 = p
    · simp [lookupStat, updateStat, h]
    · simp [lookupStat, updateStat, h, ih]

theorem lookupStat_updateStat_ne (st : Stats) {p q : String}
    (f : PilotStats → PilotStats) (h : p ≠ q) :
    lookupStat (updateStat st q f) p = lookupStat st p := by
  induction st with
  | nil => simp [lookupStat, updateStat]
  | cons e rest ih =>
    by_cases he : e.1 = q
    · have : e.1 ≠ p := by rw [he]; exact fun hc => h hc.symm
      simp [lookupStat, updateStat, he, this, Ne.symm h]
    · by_cases hp : e.1 = p
      · simp [lookupStat, updateStat, he, hp, h]
      · simp [lookupStat, updateStat, he, hp, ih]

theorem updateStat_map_fst (st : Stats) (p : String) (f : PilotStats → PilotStats) :
    (updateStat st p f).map Prod.fst = st.map Prod.fst := by
  induction st with
  | nil => simp [updateStat]
  | cons e rest ih =>
    by_cases h : e.1 = p
    · simp [updateStat, h]
    · simp [updateStat, h, ih]

theorem lookupStat_append_some {st : Stats} {p : String} {v : PilotStats}
    (l : Stats) (h : lookupStat st p = some v) :
    lookupStat (st ++ l) p = some v := by
  induction st with
  | nil => simp [lookupStat] at h
  | cons e rest ih =>
    by_cases he : e.1 = p
    · simp [lookupStat, he] at h ⊢
      exact h
    · simp [lookupStat, he] at h ⊢
      exact ih h

theorem lookupStat_append_none {st : Stats} {p : String}
    (l : Stats) (h : lookupStat st p = none) :
    lookupStat (st ++ l) p = lookupStat l p := by
  induction st with
  | nil => simp
  | cons e rest ih =>
    by_cases he : e.1 = p
    · simp [lookupStat, he] at h
    · simp [lookupStat, he] at h ⊢
      exact ih h

/-! ## addMissiles lemmas -/

theorem addMissiles_cons_eq (e : String × PilotStats) (rest : Stats)
    {q : String} (n : ℕ) (t : String) (h : e.1 = q) :
    addMissiles (e :: rest) q n t = (e.1, addBump n t e.2) :: rest := by
  simp [addMissiles, lookupStat, updateStat, h]

theorem addMissiles_cons_ne (e : String × PilotStats) (rest : Stats)
    {q : String} (n : ℕ) (t : String) (h : e.1 ≠ q) :
    addMissiles (e :: rest) q n t = e :: addMissiles rest q n t := by
  simp only [addMissiles, lookupStat, updateStat]
  rw [if_neg (by simpa using h), if_neg (by simpa using h)]
  cases hl : lookupStat rest q <;> simp

theorem addMissiles_nil (q : String) (n : ℕ) (t : String) :
    addMissiles [] q n t = [(q, newFiredRec n t)] := by
  simp [addMissiles, lookupStat]

theorem totalFired_addMissiles (st : Stats) (q : String) (n : ℕ) (t : String) :
    totalFired (addMissiles st q n t) = totalFired st + n := by
  induction st with
  | nil => simp [addMissiles_nil, totalFired, newFiredRec]
  | cons e rest ih =>
    by_cases h : e.1 = q
    · rw [addMissiles_cons_eq e rest n t h]
      simp [totalFired, addBump]
      ring
    · rw [addMissiles_cons_ne e rest n t h]
      simp only [totalFired, List.map_cons, List.sum_cons] at ih ⊢
      rw [ih]
      ring

theorem firedOf_addMissiles_self (st : Stats) (q : String) (n : ℕ) (t : String) :
    firedOf (addMissiles st q n t) q = firedOf st q + n := by
  cases hl : lookupStat st q with
  | none =>
    simp only [addMissiles, hl, firedOf]
    rw [lookupStat_append_none _ hl]
    simp [lookupStat, newFiredRec, hl]
  | some v =>
    simp only [addMissiles, hl, firedOf]
    rw [lookupStat_updateStat_self]
    simp [hl, addBump]

theorem lookupStat_addMissiles_ne (st : Stats) {p q : String} (n : ℕ) (t : String)
    (h : p ≠ q) :
    lookupStat (addMissiles st q n t) p = lookupStat st p := by
  cases hl : lookupStat st q with
  | none =>
    simp only [addMissiles, hl]
    cases hp : lookupStat st p with
    | none =>
      rw [lookupStat_append_none _ hp]
      simp [lookupStat, Ne.symm h]
    | some w => rw [lookupStat_append_some _ hp]
  | some v =>
    simp only [addMissiles, hl]
    exact lookupStat_updateStat_ne st _ h

theorem deathsOf_addMissiles (st : Stats) (p q : String) (n : ℕ) (t : String) :
    deathsOf (addMissiles st q n t) p = deathsOf st p := by
  by_cases h : p = q
  · subst h
    cases hl : lookupStat st p with
    | none =>
      simp only [addMissiles, hl, deathsOf]
      rw [lookupStat_append_none _ hl]
      simp [lookupStat, newFiredRec, hl, defaultPilotStats]
    | some v =>
      simp only [addMissiles, hl, deathsOf]
      rw [lookupStat_updateStat_self]
      simp [hl, addBump]
  · simp [deathsOf, lookupStat_addMissiles_ne st n t h]

theorem addMissiles_map_fst_of_mem (st : Stats) {q : String} (n : ℕ) (t : String)
    (h : q ∈ st.map Prod.fst) :
    (addMissiles st q n t).map Prod.fst = st.map Prod.fst := by
  cases hl : lookupStat st q with
  | none => exact absurd h ((lookupStat_eq_none_iff st q).mp hl)
  | some v =>
    simp only [addMissiles, hl]
    exact updateStat_map_fst st q _

/-- Every entry of `addMissiles st q n t` is an old entry, a bumped old entry
for key `q`, or the freshly created record for key `q`. -/
theorem mem_addMissiles {x : String × PilotStats} {st : Stats} {q : String}
    {n : ℕ} {t : String} (h : x ∈ addMissiles st q n t) :
    x ∈ st ∨ (∃ e, (q, e) ∈ st ∧ x = (q, addBump n t e)) ∨ x = (q, newFiredRec n t) := by
  induction st with
  | nil =>
    rw [addMissiles_nil] at h
    simp at h
    exact Or.inr (Or.inr h)
  | cons e rest ih =>
    by_cases he : e.1 = q
    · rw [addMissiles_cons_eq e rest n t he] at h
      rcases List.mem_cons.mp h with h1 | h1
      · subst h1
        refine Or.inr (Or.inl ⟨e.2, ?_, by rw [he]⟩)
        rw [← he]
        exact List.mem_cons_self _ _
      · exact Or.inl (List.mem_cons_of_mem _ h1)
    · rw [addMissiles_cons_ne e rest n t he] at h
      rcases List.mem_cons.mp h with h1 | h1
      · exact Or.inl (h1 ▸ List.mem_cons_self _ _)
      · rcases ih h1 with h2 | h2 | h2
        · exact Or.inl (List.mem_cons_of_mem _ h2)
        · exact Or.inr (Or.inl ⟨h2.choose, List.mem_cons_of_mem _ h2.choose_spec.1,
            h2.choose_spec.2⟩)
        · exact Or.inr (Or.inr h2)
/-! ## distributeAux / distribute lemmas -/

theorem distributeAux_total (t : String) (per rem : ℕ) :
    ∀ (l : List String) (i : ℕ) (st : Stats),
      totalFired (distributeAux t per rem i l st)
        = totalFired st + (per * l.length + min (rem - i) l.length) := by
  intro l
  induction l with
  | nil => intro i st; simp [distributeAux]
  | cons p ps ih =>
    intro i st
    simp only [distributeAux]
    rw [ih, totalFired_addMissiles]
    simp only [List.length_cons, Nat.mul_succ]
    by_cases h : i < rem
    · simp only [if_pos h]
      omega
    · simp only [if_neg h]
      omega

theorem lookupStat_distributeAux_not_mem (t : String) (per rem : ℕ) :
    ∀ (l : List String) (i : ℕ) (st : Stats) (p : String), p ∉ l →
      lookupStat (distributeAux t per rem i l st) p = lookupStat st p := by
  intro l
  induction l with
  | nil => intro i st p _; simp [distributeAux]
  | cons q ps ih =>
    intro i st p hp
    simp only [List.mem_cons, not_or] at hp
    simp only [distributeAux]
    rw [ih (i + 1) _ p hp.2]
    exact lookupStat_addMissiles_ne st _ t hp.1

theorem firedOf_distributeAux_get (t : String) (per rem : ℕ) :
    ∀ (l : List String) (i : ℕ) (st : Stats), l.Nodup →
      ∀ (j : ℕ) (hj : j < l.length),
        firedOf (distributeAux t per rem i l st) (l.get ⟨j, hj⟩)
          = firedOf st (l.get ⟨j, hj⟩) + per + (if i + j < rem then 1 else 0) := by
  intro l
  induction l with
  | nil => intro i st _ j hj; simp at hj
  | cons q ps ih =>
    intro i st hnd j hj
    rw [List.nodup_cons] at hnd
    match j with
    | 0 =>
      simp only [List.get, distributeAux]
      have h1 : firedOf (distributeAux t per rem (i + 1) ps
          (addMissiles st q (per + if i < rem then 1 else 0) t)) q
          = firedOf (addMissiles st q (per + if i < rem then 1 else 0) t) q := by
        unfold firedOf
        rw [lookupStat_distributeAux_not_mem t per rem ps (i + 1) _ q hnd.1]
      rw [h1, firedOf_addMissiles_self]
      by_cases h : i < rem <;> simp [h] <;> omega
    | Nat.succ j' =>
      simp only [List.get, distributeAux]
      have hj' : j' < ps.length := by simpa using hj
      have hne : ps.get ⟨j', hj'⟩ ≠ q := by
        intro hc
        exact hnd.1 (hc ▸ List.get_mem ps j' hj')
      rw [ih (i + 1) (addMissiles st q (per + if i < rem then 1 else 0) t)
        hnd.2 j' hj']
      have hfeq : firedOf (addMissiles st q (per + if i < rem then 1 else 0) t)
          (ps.get ⟨j', hj'⟩) = firedOf st (ps.get ⟨j', hj'⟩) := by
        unfold firedOf
        rw [lookupStat_addMissiles_ne st _ t hne]
      rw [hfeq]
      have harith : i + 1 + j' = i + (j' + 1) := by omega
      rw [harith]

theorem deathsOf_distributeAux (t : String) (per rem : ℕ) :
    ∀ (l : List String) (i : ℕ) (st : Stats) (p : String),
      deathsOf (distributeAux t per rem i l st) p = deathsOf st p := by
  intro l
  induction l with
  | nil => intro i st p; simp [distributeAux]
  | cons q ps ih =>
    intro i st p
    simp only [distributeAux]
    rw [ih, deathsOf_addMissiles]

theorem totalFired_distribute (st : Stats) (capable : List String) (t : String)
    (count : ℕ) (h : capable ≠ []) :
    totalFired (distribute st capable t count) = totalFired st + count := by
  unfold distribute
  rw [distributeAux_total]
  have hlen : 0 < capable.length := List.length_pos.mpr h
  have hmod : count % capable.length < capable.length := Nat.mod_lt _ hlen
  have hdm := Nat.div_add_mod count capable.length
  have hmin : min (count % capable.length - 0) capable.length
      = count % capable.length := by omega
  rw [hmin, Nat.mul_comm (count / capable.length) capable.length]
  omega

/-! ## updateStat membership and fold helpers -/

theorem mem_updateStat {x : String × PilotStats} {st : Stats} {p : String}
    {f : PilotStats → PilotStats} (h : x ∈ updateStat st p f) :
    x ∈ st ∨ ∃ e, (p, e) ∈ st ∧ x = (p, f e) := by
  induction st with
  | nil => simp [updateStat] at h
  | cons e rest ih =>
    by_cases he : e.1 = p
    · rw [updateStat, if_pos (by simpa using he)] at h
      rcases List.mem_cons.mp h with h1 | h1
      · exact Or.inr ⟨e.2, by rw [← he]; exact List.mem_cons_self _ _, by rw [h1, he]⟩
      · exact Or.inl (List.mem_cons_of_mem _ h1)
    · rw [updateStat, if_neg (by simpa using he)] at h
      rcases List.mem_cons.mp h with h1 | h1
      · exact Or.inl (h1 ▸ List.mem_cons_self _ _)
      · rcases ih h1 with h2 | ⟨v, hv, hx⟩
        · exact Or.inl (List.mem_cons_of_mem _ h2)
        · exact Or.inr ⟨v, List.mem_cons_of_mem _ hv, hx⟩

theorem nodup_concat_key {l : List String} {p : String}
    (hnd : l.Nodup) (hp : p ∉ l) : (l ++ [p]).Nodup := by
  simp [List.nodup_append, hnd, List.disjoint_singleton, hp]

theorem foldl_pres {β : Type} (step : Stats → β → Stats) (P : Stats → Prop)
    (hstep : ∀ st b, P st → P (step st b)) :
    ∀ (l : List β) (st : Stats), P st → P (l.foldl step st) := by
  intro l
  induction l with
  | nil => intro st h; exact h
  | cons b bs ih => intro st h; exact ih _ (hstep st b h)

/-! ## analyzePilots lemmas -/

theorem initPilot_fresh {ap : List String} {flag : Bool} {st : Stats}
    {o : ObjRecord} (h : ∀ e ∈ st, FreshAttrib e.2) :
    ∀ e ∈ initPilot ap flag st o, FreshAttrib e.2 := by
  intro x hx
  unfold initPilot at hx
  cases hg : getPilot o with
  | none => rw [hg] at hx; exact h x hx
  | some p =>
    rw [hg] at hx
    simp only at hx
    have hst1 : ∀ e ∈ (match lookupStat st p with
        | some _ => st
        | none => st ++ [(p,
            { pilot_name := p, aircraft_type := o.name, coalition := o.coalition,
              country := o.country, group := o.group, missiles_fired := 0,
              air_to_air_kills := 0, deaths := 0,
              survived := ap.contains p, missile_types_used := [],
              estimated_hit_rate := 0 })] : Stats), FreshAttrib e.2 := by
      cases hl : lookupStat st p with
      | some v => simpa using h
      | none =>
        intro e he
        rcases List.mem_append.mp he with h1 | h1
        · exact h e h1
        · simp at h1
          rw [h1]
          exact ⟨rfl, rfl, rfl, rfl⟩
    cases flag with
    | false => simpa using hst1 x hx
    | true =>
      simp only [if_true] at hx
      rcases mem_updateStat hx with h1 | ⟨v, hv, hxv⟩
      · exact hst1 x h1
      · rw [hxv]
        have := hst1 (p, v) hv
        exact this

theorem analyzePilots_fresh (a r : List ObjRecord) :
    ∀ e ∈ analyzePilots a r, FreshAttrib e.2 := by
  unfold analyzePilots
  apply foldl_pres _ (fun st => ∀ e ∈ st, FreshAttrib e.2)
    (fun st o hst => initPilot_fresh hst)
  apply foldl_pres _ (fun st => ∀ e ∈ st, FreshAttrib e.2)
    (fun st o hst => initPilot_fresh hst)
  intro e he
  simp at he

theorem initPilot_nodup {ap : List String} {flag : Bool} {st : Stats}
    {o : ObjRecord} (h : (st.map Prod.fst).Nodup) :
    ((initPilot ap flag st o).map Prod.fst).Nodup := by
  unfold initPilot
  cases hg : getPilot o with
  | none => exact h
  | some p =>
    simp only
    have hst1 : (((match lookupStat st p with
        | some _ => st
        | none => st ++ [(p,
            { pilot_name := p, aircraft_type := o.name, coalition := o.coalition,
              country := o.country, group := o.group, missiles_fired := 0,
              air_to_air_kills := 0, deaths := 0,
              survived := ap.contains p, missile_types_used := [],
              estimated_hit_rate := 0 })] : Stats)).map Prod.fst).Nodup := by
      cases hl : lookupStat st p with
      | some v => exact h
      | none =>
        rw [List.map_append]
        exact nodup_concat_key h ((lookupStat_eq_none_iff st p).mp hl)
    cases flag with
    | false => simpa using hst1
    | true =>
      simp only [if_true]
      rw [updateStat_map_fst]
      exact hst1

theorem analyzePilots_nodup (a r : List ObjRecord) :
    (((analyzePilots a r)).map Prod.fst).Nodup := by
  unfold analyzePilots
  apply foldl_pres _ (fun st => ((st.map Prod.fst)).Nodup)
    (fun st o hst => initPilot_nodup hst)
  apply foldl_pres _ (fun st => ((st.map Prod.fst)).Nodup)
    (fun st o hst => initPilot_nodup hst)
  simp

/-! ## Death counting lemmas -/

theorem deathsOf_append_new (st : Stats) (q : String) (v : PilotStats)
    (hl : lookupStat st q = none) (hv : v.deaths = 0) (p : String) :
    deathsOf (st ++ [(q, v)]) p = deathsOf st p := by
  by_cases hpq : p = q
  · subst hpq
    unfold deathsOf
    rw [lookupStat_append_none _ hl, hl]
    simp [lookupStat, hv]
  · unfold deathsOf
    cases hp : lookupStat st p with
    | none =>
      rw [lookupStat_append_none _ hp]
      simp [lookupStat, Ne.symm hpq]
    | some w => rw [lookupStat_append_some _ hp]

theorem deathsOf_initPilot_false (ap : List String) (st : Stats) (o : ObjRecord)
    (p : String) : deathsOf (initPilot ap false st o) p = deathsOf st p := by
  unfold initPilot
  cases hg : getPilot o with
  | none => rfl
  | some q =>
    simp only [if_neg (by simp : ¬false = true)]
    cases hl : lookupStat st q with
    | some v => rfl
    | none => exact deathsOf_append_new st q _ hl rfl p

theorem deathsOf_initPilot_true (ap : List String) (st : Stats) (o : ObjRecord)
    (p : String) :
    deathsOf (initPilot ap true st o) p
      = deathsOf st p + (if getPilot o == some p then 1 else 0) := by
  unfold initPilot
  cases hg : getPilot o with
  | none => simp
  | some q =>
    simp only [if_true]
    by_cases hpq : p = q
    · subst hpq
      have hbeq : (some p == some p) = true := by simp
      rw [hbeq]
      cases hl : lookupStat st p with
      | some v =>
        simp only [hl]
        unfold deathsOf
        rw [lookupStat_updateStat_self]
        simp [hl]
      | none =>
        simp only [hl]
        unfold deathsOf
        rw [lookupStat_updateStat_self]
        rw [lookupStat_append_none _ hl, hl]
        simp [lookupStat]
    · have hbeq : (some q == some p) = false := by
        simp [Ne.symm hpq]
      rw [hbeq]
      simp only [if_neg (by simp : ¬false = true), Nat.add_zero]
      cases hl : lookupStat st q with
      | some v =>
        simp only [hl]
        unfold deathsOf
        rw [lookupStat_updateStat_ne _ _ hpq]
      | none =>
        simp only [hl]
        unfold deathsOf
        rw [lookupStat_updateStat_ne _ _ hpq]
        have := deathsOf_append_new st q
          { pilot_name := q, aircraft_type := o.name, coalition := o.coalition,
            country := o.country, group := o.group, missiles_fired := 0,
            air_to_air_kills := 0, deaths := 0,
            survived := ap.contains q, missile_types_used := [],
            estimated_hit_rate := 0 } hl rfl p
        unfold deathsOf at this
        exact this

theorem deathsOf_foldl_false (ap : List String) :
    ∀ (l : List ObjRecord) (st : Stats) (p : String),
      deathsOf (l.foldl (initPilot ap false) st) p = deathsOf st p := by
  intro l
  induction l with
  | nil => intro st p; rfl
  | cons o os ih =>
    intro st p
    simp only [List.foldl_cons]
    rw [ih, deathsOf_initPilot_false]

theorem deathsOf_foldl_true (ap : List String) :
    ∀ (l : List ObjRecord) (st : Stats) (p : String),
      deathsOf (l.foldl (initPilot ap true) st) p
        = deathsOf st p + (l.filter (fun o => getPilot o == some p)).length := by
  intro l
  induction l with
  | nil => intro st p; simp
  | cons o os ih =>
    intro st p
    simp only [List.foldl_cons]
    rw [ih, deathsOf_initPilot_true]
    by_cases h : getPilot o == some p
    · simp [List.filter_cons, h]
      omega
    · simp only [List.filter_cons]
      rw [if_neg (by simpa using h)]
      simp [h]

theorem deathsOf_analyzePilots (a r : List ObjRecord) (p : String) :
    deathsOf (analyzePilots a r) p
      = (r.filter (fun o => getPilot o == some p)).length := by
  unfold analyzePilots
  rw [deathsOf_foldl_true, deathsOf_foldl_false]
  simp [deathsOf, lookupStat]

/-! ## Generic fold and grouping lemmas -/

theorem foldl_acc_inv {β γ : Type} (step : γ → β → γ) (P : γ → Prop) :
    ∀ (l : List β), (∀ acc b, b ∈ l → P acc → P (step acc b)) →
      ∀ acc, P acc → P (l.foldl step acc) := by
  intro l
  induction l with
  | nil => intro _ acc h; exact h
  | cons b bs ih =>
    intro hstep acc h
    exact ih (fun a c hc => hstep a c (List.mem_cons_of_mem _ hc)) _
      (hstep acc b (List.mem_cons_self _ _) h)

theorem groupInsert_inv {α : Type} {P : α → Prop} {k : String} {x : α} :
    ∀ {acc : List (String × List α)},
      (∀ e ∈ acc, ∀ v ∈ e.2, P v) → P x →
      ∀ e ∈ groupInsert k x acc, ∀ v ∈ e.2, P v := by
  intro acc
  induction acc with
  | nil =>
    intro _ hx e he v hv
    simp [groupInsert] at he
    rw [he] at hv
    simp at hv
    rw [hv]
    exact hx
  | cons a rest ih =>
    intro h hx e he v hv
    simp only [groupInsert] at he
    by_cases ha : a.1 = k
    · rw [if_pos (by simpa using ha)] at he
      rcases List.mem_cons.mp he with h1 | h1
      · rw [h1] at hv
        simp only at hv
        rcases List.mem_append.mp hv with h2 | h2
        · exact h a (List.mem_cons_self _ _) v h2
        · simp at h2
          rw [h2]
          exact hx
      · exact h e (List.mem_cons_of_mem _ h1) v hv
    · rw [if_neg (by simpa using ha)] at he
      rcases List.mem_cons.mp he with h1 | h1
      · exact h e (h1 ▸ List.mem_cons_self _ _) v hv
      · exact ih (fun e' he' => h e' (List.mem_cons_of_mem _ he')) hx e h1 v hv

theorem mem_groupByKey_val {α : Type} (key : α → String) (l : List α) :
    ∀ e ∈ groupByKey key l, ∀ v ∈ e.2, v ∈ l := by
  unfold groupByKey
  refine foldl_acc_inv (fun acc x => groupInsert (key x) x acc)
    (fun g => ∀ e ∈ g, ∀ v ∈ e.2, v ∈ l) l ?_ [] ?_
  · intro acc b hb h
    exact groupInsert_inv h hb
  · intro e he
    simp at he

theorem countInsert_inv {P : String → Prop} {k : String} :
    ∀ {acc : List (String × ℕ)},
      (∀ e ∈ acc, P e.1) → P k → ∀ e ∈ countInsert k acc, P e.1 := by
  intro acc
  induction acc with
  | nil =>
    intro _ hk e he
    simp [countInsert] at he
    rw [he]
    exact hk
  | cons a rest ih =>
    intro h hk e he
    simp only [countInsert] at he
    by_cases ha : a.1 = k
    · rw [if_pos (by simpa using ha)] at he
      rcases List.mem_cons.mp he with h1 | h1
      · rw [h1]
        exact h a (List.mem_cons_self _ _)
      · exact h e (List.mem_cons_of_mem _ h1)
    · rw [if_neg (by simpa using ha)] at he
      rcases List.mem_cons.mp he with h1 | h1
      · exact h e (h1 ▸ List.mem_cons_self _ _)
      · exact ih (fun e' he' => h e' (List.mem_cons_of_mem _ he')) hk e h1

theorem mem_groupCounts_key {α : Type} (key : α → String) (l : List α) :
    ∀ e ∈ groupCounts key l, ∃ x ∈ l, key x = e.1 := by
  unfold groupCounts
  refine foldl_acc_inv (fun acc x => countInsert (key x) acc)
    (fun g => ∀ e ∈ g, ∃ x ∈ l, key x = e.1) l ?_ [] ?_
  · intro acc b hb h
    exact countInsert_inv (P := fun s => ∃ x ∈ l, key x = s) h ⟨b, hb, rfl⟩
  · intro e he
    simp at he

theorem countInsert_cons_eq (a : String × ℕ) (rest : List (String × ℕ))
    (k : String) (h : a.1 = k) :
    countInsert k (a :: rest) = (a.1, a.2 + 1) :: rest := by
  simp [countInsert, h]

theorem countInsert_cons_ne (a : String × ℕ) (rest : List (String × ℕ))
    (k : String) (h : a.1 ≠ k) :
    countInsert k (a :: rest) = a :: countInsert k rest := by
  simp [countInsert, h]

theorem sum_countInsert (k : String) :
    ∀ (acc : List (String × ℕ)),
      ((countInsert k acc).map (fun e => e.2)).sum
        = ((acc.map (fun e => e.2)).sum) + 1 := by
  intro acc
  induction acc with
  | nil => simp [countInsert]
  | cons a rest ih =>
    by_cases ha : a.1 = k
    · rw [countInsert_cons_eq a rest k ha]
      simp only [List.map_cons, List.sum_cons]
      omega
    · rw [countInsert_cons_ne a rest k ha]
      simp only [List.map_cons, List.sum_cons, ih]
      omega

theorem sum_groupCounts {α : Type} (key : α → String) (l : List α) :
    ((groupCounts key l).map (fun e => e.2)).sum = l.length := by
  unfold groupCounts
  suffices h : ∀ (l' : List α) (acc : List (String × ℕ)),
      ((l'.foldl (fun acc x => countInsert (key x) acc) acc).map (fun e => e.2)).sum
        = ((acc.map (fun e => e.2)).sum) + l'.length by
    simpa using h l []
  intro l'
  induction l' with
  | nil => intro acc; simp
  | cons x xs ih =>
    intro acc
    simp only [List.foldl_cons, List.length_cons]
    rw [ih, sum_countInsert]
    omega

theorem groupInsert_cons_eq {α : Type} (a : String × List α) (rest : List (String × List α))
    (k : String) (x : α) (h : a.1 = k) :
    groupInsert k x (a :: rest) = (a.1, a.2 ++ [x]) :: rest := by
  simp [groupInsert, h]

theorem groupInsert_cons_ne {α : Type} (a : String × List α) (rest : List (String × List α))
    (k : String) (x : α) (h : a.1 ≠ k) :
    groupInsert k x (a :: rest) = a :: groupInsert k x rest := by
  simp [groupInsert, h]

theorem sum_groupInsert {α : Type} (k : String) (x : α) :
    ∀ (acc : List (String × List α)),
      ((groupInsert k x acc).map (fun e => e.2.length)).sum
        = ((acc.map (fun e => e.2.length)).sum) + 1 := by
  intro acc
  induction acc with
  | nil => simp [groupInsert]
  | cons a rest ih =>
    by_cases ha : a.1 = k
    · rw [groupInsert_cons_eq a rest k x ha]
      simp only [List.map_cons, List.sum_cons, List.length_append]
      simp
      omega
    · rw [groupInsert_cons_ne a rest k x ha]
      simp only [List.map_cons, List.sum_cons, ih]
      omega

theorem sum_groupByKey_lengths {α : Type} (key : α → String) (l : List α) :
    ((groupByKey key l).map (fun e => e.2.length)).sum = l.length := by
  unfold groupByKey
  suffices h : ∀ (l' : List α) (acc : List (String × List α)),
      (((l'.foldl (fun acc x => groupInsert (key x) x acc) acc)).map
        (fun e => e.2.length)).sum
        = ((acc.map (fun e => e.2.length)).sum) + l'.length by
    simpa using h l []
  intro l'
  induction l' with
  | nil => intro acc; simp
  | cons x xs ih =>
    intro acc
    simp only [List.foldl_cons, List.length_cons]
    rw [ih, sum_groupInsert]
    omega

theorem sum_map_add {α : Type} (f g : α → ℕ) (l : List α) :
    (l.map (fun x => f x + g x)).sum = (l.map f).sum + (l.map g).sum := by
  induction l with
  | nil => simp
  | cons x xs ih =>
    simp only [List.map_cons, List.sum_cons, ih]
    omega

/-! ## estimateMissileUsage preservation lemmas -/

theorem addMissiles_inv {Q : PilotStats → Prop} {st : Stats} {q : String}
    {n : ℕ} {t : String} (hb : ∀ e, Q e → Q (addBump n t e))
    (hn : Q (newFiredRec n t)) (h : ∀ e ∈ st, Q e.2) :
    ∀ e ∈ addMissiles st q n t, Q e.2 := by
  intro x hx
  rcases mem_addMissiles hx with h1 | ⟨v, hv, hxv⟩ | h1
  · exact h x h1
  · rw [hxv]
    exact hb v (h _ hv)
  · rw [h1]
    exact hn

theorem distributeAux_inv {Q : PilotStats → Prop} {t : String} {per rem : ℕ}
    (hb : ∀ n e, Q e → Q (addBump n t e)) (hn : ∀ n, Q (newFiredRec n t)) :
    ∀ (l : List String) (i : ℕ) (st : Stats), (∀ e ∈ st, Q e.2) →
      ∀ e ∈ distributeAux t per rem i l st, Q e.2 := by
  intro l
  induction l with
  | nil => intro i st h; exact h
  | cons q ps ih =>
    intro i st h
    exact ih (i + 1) _ (addMissiles_inv (hb _) (hn _) h)

theorem distribute_inv {Q : PilotStats → Prop} {t : String}
    (hb : ∀ n e, Q e → Q (addBump n t e)) (hn : ∀ n, Q (newFiredRec n t))
    {st : Stats} (capable : List String) (count : ℕ) (h : ∀ e ∈ st, Q e.2) :
    ∀ e ∈ distribute st capable t count, Q e.2 :=
  distributeAux_inv hb hn capable 0 st h

theorem distributeAux_keys (t : String) (per rem : ℕ) :
    ∀ (l : List String) (i : ℕ) (st : Stats),
      (∀ q ∈ l, q ∈ st.map Prod.fst) →
      (distributeAux t per rem i l st).map Prod.fst = st.map Prod.fst := by
  intro l
  induction l with
  | nil => intro i st _; rfl
  | cons q ps ih =>
    intro i st hsub
    simp only [distributeAux]
    have hk : (addMissiles st q (per + if i < rem then 1 else 0) t).map Prod.fst
        = st.map Prod.fst :=
      addMissiles_map_fst_of_mem st _ t (hsub q (List.mem_cons_self _ _))
    rw [ih (i + 1) _ (fun r hr => by
      rw [hk]
      exact hsub r (List.mem_cons_of_mem _ hr)), hk]

theorem distribute_keys {st : Stats} (capable : List String) (t : String)
    (count : ℕ) (hsub : ∀ q ∈ capable, q ∈ st.map Prod.fst) :
    (distribute st capable t count).map Prod.fst = st.map Prod.fst :=
  distributeAux_keys t _ _ capable 0 st hsub

theorem lookupStat_distribute_not_mem {st : Stats} {capable : List String}
    {t : String} {count : ℕ} {p : String} (hp : p ∉ capable) :
    lookupStat (distribute st capable t count) p = lookupStat st p :=
  lookupStat_distributeAux_not_mem t _ _ capable 0 st p hp

theorem pilotsOfCoalition_sub (st : Stats) (c : String) :
    ∀ p ∈ pilotsOfCoalition st c, p ∈ st.map Prod.fst := by
  intro p hp
  unfold pilotsOfCoalition at hp
  rcases List.mem_map.mp hp with ⟨e, he, hfe⟩
  exact List.mem_map.mpr ⟨e, (List.mem_filter.mp he).1, hfe⟩

/-- Any property preserved by every apportionment call that the estimation
stage actually makes is preserved by the whole stage. -/
theorem estimate_pres (st : Stats) (a2a : List ObjRecord) (P : Stats → Prop)
    (hstep : ∀ (acc : Stats) (c t : String) (n : ℕ),
      (∃ m ∈ a2a, m.name = t) → P acc →
      P (distribute acc ((pilotsOfCoalition st c).filter
          (fun p => canCarryMissile (aircraftTypeOf st p) t)) t n))
    (hst : P st) : P (estimateMissileUsage st a2a) := by
  unfold estimateMissileUsage
  refine foldl_acc_inv _ P (groupByKey (fun m => m.coalition) a2a) ?_ st hst
  intro acc g hg hPacc
  dsimp only
  by_cases hp : (pilotsOfCoalition st g.1).isEmpty
  · rw [if_pos hp]
    exact hPacc
  · rw [if_neg hp]
    have hms : ∀ v ∈ g.2, v ∈ a2a := mem_groupByKey_val _ a2a g hg
    refine foldl_acc_inv _ P (groupCounts (fun m => m.name) g.2) ?_ acc hPacc
    intro acc2 tc htc hP2
    dsimp only
    by_cases hc : ((pilotsOfCoalition st g.1).filter
        (fun p => canCarryMissile (aircraftTypeOf st p) tc.1)).isEmpty
    · rw [if_pos hc]
      exact hP2
    · rw [if_neg hc]
      rcases mem_groupCounts_key _ g.2 tc htc with ⟨m, hm, hname⟩
      exact hstep acc2 g.1 tc.1 tc.2 ⟨m, hms m hm, hname⟩ hP2

theorem deathsOf_estimate (st : Stats) (a2a : List ObjRecord) (p : String) :
    deathsOf (estimateMissileUsage st a2a) p = deathsOf st p :=
  estimate_pres st a2a (fun s => deathsOf s p = deathsOf st p)
    (fun acc c t n _ h => by
      dsimp only at h ⊢
      unfold distribute
      rw [deathsOf_distributeAux]
      exact h) rfl

theorem estimate_keys (st : Stats) (a2a : List ObjRecord) :
    (estimateMissileUsage st a2a).map Prod.fst = st.map Prod.fst :=
  estimate_pres st a2a (fun s => s.map Prod.fst = st.map Prod.fst)
    (fun acc c t n _ h => by
      dsimp only at h ⊢
      rw [distribute_keys _ t n (fun q hq => by
        rw [h]
        exact pilotsOfCoalition_sub st c q (List.mem_filter.mp hq).1), h]) rfl

theorem estimate_lookup_untouched (st : Stats) (a2a : List ObjRecord)
    {p : String} (hC : ∀ c, p ∉ pilotsOfCoalition st c) :
    lookupStat (estimateMissileUsage st a2a) p = lookupStat st p :=
  estimate_pres st a2a (fun s => lookupStat s p = lookupStat st p)
    (fun acc c t n _ h => by
      dsimp only at h ⊢
      rw [lookupStat_distribute_not_mem
        (fun hin => hC c (List.mem_filter.mp hin).1), h])
    rfl

/-- Kill count and hit rate are still at their initial zero after estimation. -/
theorem estimate_zero_kr (st : Stats) (a2a : List ObjRecord)
    (h : ∀ e ∈ st, e.2.air_to_air_kills = 0 ∧ e.2.estimated_hit_rate = 0) :
    ∀ e ∈ estimateMissileUsage st a2a,
      e.2.air_to_air_kills = 0 ∧ e.2.estimated_hit_rate = 0 :=
  estimate_pres st a2a
    (fun s => ∀ e ∈ s, e.2.air_to_air_kills = 0 ∧ e.2.estimated_hit_rate = 0)
    (fun acc c t n _ hacc => by
      dsimp only at hacc ⊢
      exact distribute_inv
        (Q := fun e => e.air_to_air_kills = 0 ∧ e.estimated_hit_rate = 0)
        (fun m e he => he) (fun m => ⟨rfl, rfl⟩) _ n hacc) h

/-- Every recorded munition-type string is the name of some analyzed
air-to-air munition. -/
theorem estimate_types_from (st : Stats) (a2a : List ObjRecord)
    (h : ∀ e ∈ st, ∀ x ∈ e.2.missile_types_used, x ∈ a2a.map (fun m => m.name)) :
    ∀ e ∈ estimateMissileUsage st a2a,
      ∀ x ∈ e.2.missile_types_used, x ∈ a2a.map (fun m => m.name) := by
  refine estimate_pres st a2a
    (fun s => ∀ e ∈ s, ∀ x ∈ e.2.missile_types_used, x ∈ a2a.map (fun m => m.name))
    ?_ h
  intro acc c t n hprov hacc
  dsimp only at hacc ⊢
  rcases hprov with ⟨m, hm, hname⟩
  have ht : t ∈ a2a.map (fun mm => mm.name) := List.mem_map.mpr ⟨m, hm, hname⟩
  refine distribute_inv
    (Q := fun e => ∀ x ∈ e.missile_types_used, x ∈ a2a.map (fun mm => mm.name))
    ?_ ?_ _ n hacc
  · intro k e he x hx
    unfold addBump at hx
    simp only at hx
    by_cases hcont : e.missile_types_used.contains t
    · rw [if_pos hcont] at hx
      exact he x hx
    · rw [if_neg hcont] at hx
      rcases List.mem_append.mp hx with h1 | h1
      · exact he x h1
      · simp at h1
        rw [h1]
        exact ht
  · intro k x hx
    unfold newFiredRec at hx
    simp at hx
    rw [hx]
    exact ht

/-! ## Total apportioned count -/

theorem estimate_total (st : Stats) (a2a : List ObjRecord) :
    totalFired (estimateMissileUsage st a2a)
      = totalFired st + attributableSum st a2a := by
  unfold estimateMissileUsage attributableSum
  have hinner : ∀ (c : String) (ts : List (String × ℕ)) (acc2 : Stats),
      totalFired (ts.foldl (fun acc2 tc =>
        let capable := (pilotsOfCoalition st c).filter
          (fun p => canCarryMissile (aircraftTypeOf st p) tc.1)
        if capable.isEmpty then acc2 else
        distribute acc2 capable tc.1 tc.2) acc2)
      = totalFired acc2 + (ts.map (fun tc =>
          if ((pilotsOfCoalition st c).filter
              (fun p => canCarryMissile (aircraftTypeOf st p) tc.1)).isEmpty
          then 0 else tc.2)).sum := by
    intro c ts
    induction ts with
    | nil => intro acc2; simp
    | cons tc tsr ih =>
      intro acc2
      simp only [List.foldl_cons, List.map_cons, List.sum_cons]
      rw [ih]
      by_cases hcap : ((pilotsOfCoalition st c).filter
          (fun p => canCarryMissile (aircraftTypeOf st p) tc.1)).isEmpty
      · rw [if_pos hcap, if_pos hcap]
        omega
      · rw [if_neg hcap, if_neg hcap]
        rw [totalFired_distribute _ _ _ _
          (fun hnil => hcap (by rw [hnil]; rfl))]
        omega
  suffices h : ∀ (gs : List (String × List ObjRecord)) (acc : Stats),
      totalFired (gs.foldl (fun acc cms =>
        let pilots := pilotsOfCoalition st cms.1
        if pilots.isEmpty then acc else
        let missileTypes := groupCounts (fun m => m.name) cms.2
        missileTypes.foldl (fun acc2 tc =>
          let capable := pilots.filter
            (fun p => canCarryMissile (aircraftTypeOf st p) tc.1)
          if capable.isEmpty then acc2 else
          distribute acc2 capable tc.1 tc.2) acc) acc)
      = totalFired acc + ((gs.map (fun cms =>
          if (pilotsOfCoalition st cms.1).isEmpty then 0 else
          ((groupCounts (fun m => m.name) cms.2).map (fun tc =>
            if ((pilotsOfCoalition st cms.1).filter
                (fun p => canCarryMissile (aircraftTypeOf st p) tc.1)).isEmpty
            then 0 else tc.2)).sum)).sum) by
    exact h _ st
  intro gs
  induction gs with
  | nil => intro acc; simp
  | cons g gsr ih =>
    intro acc
    simp only [List.foldl_cons, List.map_cons, List.sum_cons]
    rw [ih]
    by_cases hp : (pilotsOfCoalition st g.1).isEmpty
    · rw [if_pos hp, if_pos hp]
      omega
    · rw [if_neg hp, if_neg hp]
      rw [hinner g.1 (groupCounts (fun m => m.name) g.2) acc]
      omega

/-! ## calculateKillEstimates lemmas -/

theorem killUpdate_cases (st : Stats) (rm : List ObjRecord) (e : PilotStats) :
    killUpdate st rm e = e ∨ ∃ k, killUpdate st rm e
      = { e with air_to_air_kills := k, estimated_hit_rate := hitRate } := by
  unfold killUpdate
  split
  · exact Or.inl rfl
  · dsimp only
    split
    · exact Or.inl rfl
    · split
      · exact Or.inl rfl
      · exact Or.inr ⟨_, rfl⟩

theorem killUpdate_pres (st : Stats) (rm : List ObjRecord) (e : PilotStats) :
    (killUpdate st rm e).missiles_fired = e.missiles_fired ∧
    (killUpdate st rm e).coalition = e.coalition ∧
    (killUpdate st rm e).deaths = e.deaths ∧
    (killUpdate st rm e).aircraft_type = e.aircraft_type ∧
    (killUpdate st rm e).missile_types_used = e.missile_types_used ∧
    (killUpdate st rm e).survived = e.survived := by
  rcases killUpdate_cases st rm e with h | ⟨k, h⟩ <;> rw [h] <;>
    exact ⟨rfl, rfl, rfl, rfl, rfl, rfl⟩

theorem killUpdate_of_fired_zero (st : Stats) (rm : List ObjRecord)
    {e : PilotStats} (hm : e.missiles_fired = 0) : killUpdate st rm e = e := by
  simp [killUpdate, hm]

theorem lookupStat_map_pair (f : PilotStats → PilotStats) :
    ∀ (l : Stats) (p : String),
      lookupStat (l.map (fun e => (e.1, f e.2))) p = (lookupStat l p).map f := by
  intro l
  induction l with
  | nil => intro p; rfl
  | cons e rest ih =>
    intro p
    by_cases he : e.1 = p
    · simp [lookupStat, he]
    · simp [lookupStat, he, ih]

theorem lookupStat_calcKill (st : Stats) (rm : List ObjRecord) (p : String) :
    lookupStat (calculateKillEstimates st rm) p
      = (lookupStat st p).map (killUpdate st rm) := by
  unfold calculateKillEstimates
  exact lookupStat_map_pair _ st p

theorem coalitionTotalFired_map (f : PilotStats → PilotStats)
    (hf : ∀ e, (f e).coalition = e.coalition ∧ (f e).missiles_fired = e.missiles_fired) :
    ∀ (l : Stats) (c : String),
      coalitionTotalFired (l.map (fun e => (e.1, f e.2))) c
        = coalitionTotalFired l c := by
  intro l c
  unfold coalitionTotalFired
  induction l with
  | nil => rfl
  | cons e rest ih =>
    simp only [List.map_cons, List.filter_cons]
    rw [(hf e.2).1, (hf e.2).2]
    by_cases hc : (e.2.coalition == c && decide (0 < e.2.missiles_fired)) = true
    · rw [if_pos hc, if_pos hc]
      simp only [List.map_cons, List.sum_cons]
      rw [(hf e.2).2, ih]
    · rw [if_neg hc, if_neg hc]
      exact ih

theorem totalFired_map (f : PilotStats → PilotStats)
    (hf : ∀ e, (f e).missiles_fired = e.missiles_fired) :
    ∀ (l : Stats), totalFired (l.map (fun e => (e.1, f e.2))) = totalFired l := by
  intro l
  induction l with
  | nil => rfl
  | cons e rest ih =>
    unfold totalFired at ih ⊢
    simp only [List.map_cons, List.sum_cons]
    rw [hf e.2, ih]

theorem totalFired_calcKill (st : Stats) (rm : List ObjRecord) :
    totalFired (calculateKillEstimates st rm) = totalFired st :=
  totalFired_map (killUpdate st rm) (fun e => (killUpdate_pres st rm e).1) st

/-! ## killUpdate characterization -/

theorem shooters_isEmpty_false {st : Stats} {p : String} {e : PilotStats}
    (hmem : (p, e) ∈ st) (hm : e.missiles_fired ≠ 0) :
    (st.filter (fun q => q.2.coalition == e.coalition
      && decide (0 < q.2.missiles_fired))).isEmpty = false := by
  have hmem2 : (p, e) ∈ st.filter (fun q => q.2.coalition == e.coalition
      && decide (0 < q.2.missiles_fired)) := by
    refine List.mem_filter.mpr ⟨hmem, ?_⟩
    simp [Nat.pos_of_ne_zero hm]
  cases hsh : st.filter (fun q => q.2.coalition == e.coalition
      && decide (0 < q.2.missiles_fired)) with
  | nil => exact absurd (hsh ▸ hmem2) (List.not_mem_nil _)
  | cons a l => rfl

theorem killUpdate_main {st : Stats} {rm : List ObjRecord} {p : String}
    {e : PilotStats} (hmem : (p, e) ∈ st) (hm : e.missiles_fired ≠ 0)
    (hL : coalitionLosses rm (enemyOf e.coalition) ≠ 0) :
    killUpdate st rm e = { e with
      air_to_air_kills := min ((e.missiles_fired * 3) / 10)
        ((coalitionLosses rm (enemyOf e.coalition) * e.missiles_fired)
          / coalitionTotalFired st e.coalition),
      estimated_hit_rate := hitRate } := by
  unfold killUpdate coalitionTotalFired
  rw [if_neg (by simpa using hm)]
  dsimp only
  rw [if_neg (by simpa using hL)]
  rw [if_neg (by simp [shooters_isEmpty_false hmem hm])]

theorem killUpdate_kills_char {st : Stats} {rm : List ObjRecord} {p : String}
    {e : PilotStats} (hmem : (p, e) ∈ st) (hk : e.air_to_air_kills = 0) :
    ((killUpdate st rm e).air_to_air_kills : ℤ)
      = specKillEstimate e.missiles_fired (coalitionTotalFired st e.coalition)
          (coalitionLosses rm (enemyOf e.coalition)) hitRate := by
  by_cases hm : e.missiles_fired = 0
  · rw [killUpdate_of_fired_zero st rm hm, hk]
    unfold specKillEstimate
    rw [hm]
    norm_num
  · by_cases hL : coalitionLosses rm (enemyOf e.coalition) = 0
    · have hred : killUpdate st rm e = e := by
        unfold killUpdate
        rw [if_neg (by simpa using hm)]
        dsimp only
        rw [if_pos (by simpa using hL)]
      rw [hred, hk]
      unfold specKillEstimate
      rw [hL]
      have hA : (0 : ℤ) ≤ Int.floor ((e.missiles_fired : ℚ) * hitRate) := by
        rw [← natDiv_cast_eq_floorA]
        exact Int.natCast_nonneg _
      norm_num
    · rw [killUpdate_main hmem hm hL]
      unfold specKillEstimate
      have hA : (0 : ℤ) ≤ Int.floor ((e.missiles_fired : ℚ) * hitRate) := by
        rw [← natDiv_cast_eq_floorA]
        exact Int.natCast_nonneg _
      have hB : (0 : ℤ) ≤ Int.floor ((coalitionLosses rm (enemyOf e.coalition) : ℚ)
          * ((e.missiles_fired : ℚ) / (coalitionTotalFired st e.coalition : ℚ))) := by
        rw [← natDiv_cast_eq_floorB]
        exact Int.natCast_nonneg _
      rw [max_eq_right (le_min hA hB)]
      dsimp only
      rw [Nat.cast_min, natDiv_cast_eq_floorA, natDiv_cast_eq_floorB]

theorem killUpdate_rate_char {st : Stats} {rm : List ObjRecord} {p : String}
    {e : PilotStats} (hmem : (p, e) ∈ st) :
    (killUpdate st rm e).estimated_hit_rate
      = if 0 < e.missiles_fired ∧ 0 < coalitionLosses rm (enemyOf e.coalition)
        then hitRate else e.estimated_hit_rate := by
  by_cases hm : e.missiles_fired = 0
  · rw [killUpdate_of_fired_zero st rm hm, if_neg (by omega)]
  · by_cases hL : coalitionLosses rm (enemyOf e.coalition) = 0
    · have hred : killUpdate st rm e = e := by
        unfold killUpdate
        rw [if_neg (by simpa using hm)]
        dsimp only
        rw [if_pos (by simpa using hL)]
      rw [hred, if_neg (by omega)]
    · rw [killUpdate_main hmem hm hL, if_pos ⟨Nat.pos_of_ne_zero hm, Nat.pos_of_ne_zero hL⟩]

/-! ## Pipeline assembly lemmas -/

theorem attributionStats_zero_kr (alive removed : List ObjRecord) :
    ∀ e ∈ attributionStats alive removed,
      e.2.air_to_air_kills = 0 ∧ e.2.estimated_hit_rate = 0 := by
  unfold attributionStats
  apply estimate_zero_kr
  intro e he
  have := analyzePilots_fresh _ _ e he
  exact ⟨this.2.1, this.2.2.2⟩

theorem attributionStats_nodup (alive removed : List ObjRecord) :
    ((attributionStats alive removed).map Prod.fst).Nodup := by
  unfold attributionStats
  rw [estimate_keys]
  exact analyzePilots_nodup _ _

theorem mem_analyzeCombatData {alive removed : List ObjRecord} {p : String}
    {e : PilotStats} (h : (p, e) ∈ analyzeCombatData alive removed) :
    ∃ f, (p, f) ∈ attributionStats alive removed ∧
      e = killUpdate (attributionStats alive removed) (removed.filter isPlane) f := by
  unfold analyzeCombatData calculateKillEstimates at h
  rcases List.mem_map.mp h with ⟨x, hx, hxe⟩
  have h1 : x.1 = p := congrArg Prod.fst hxe
  have h2 : killUpdate (attributionStats alive removed) (removed.filter isPlane) x.2
      = e := congrArg Prod.snd hxe
  exact ⟨x.2, by rw [← h1]; exact hx, h2.symm⟩

theorem coalitionTotalFired_final (alive removed : List ObjRecord) (c : String) :
    coalitionTotalFired (analyzeCombatData alive removed) c
      = coalitionTotalFired (attributionStats alive removed) c := by
  unfold analyzeCombatData calculateKillEstimates
  exact coalitionTotalFired_map _ (fun e =>
    ⟨(killUpdate_pres _ _ e).2.1, (killUpdate_pres _ _ e).1⟩) _ c

theorem deathsOf_calcKill (st : Stats) (rm : List ObjRecord) (p : String) :
    deathsOf (calculateKillEstimates st rm) p = deathsOf st p := by
  unfold deathsOf
  rw [lookupStat_calcKill]
  cases lookupStat st p with
  | none => rfl
  | some v =>
    simp only [Option.map_some, Option.getD_some, Option.map_map]
    exact (killUpdate_pres st rm v).2.2.1

/-! ## Aircraft-type lookup preservation through estimation -/

theorem lookupStat_addMissiles_at (st : Stats) (q : String) (n : ℕ) (t : String)
    (p : String) (hq : q ∈ st.map Prod.fst) :
    (lookupStat (addMissiles st q n t) p).map (fun v => v.aircraft_type)
      = (lookupStat st p).map (fun v => v.aircraft_type) := by
  by_cases hpq : p = q
  · subst hpq
    cases hl : lookupStat st p with
    | none => exact absurd hq ((lookupStat_eq_none_iff st p).mp hl)
    | some v =>
      simp only [addMissiles, hl]
      rw [lookupStat_updateStat_self, hl]
      rfl
  · rw [lookupStat_addMissiles_ne st n t hpq]

theorem lookupStat_distributeAux_at (t : String) (per rem : ℕ) (p : String) :
    ∀ (l : List String) (i : ℕ) (st : Stats),
      (∀ q ∈ l, q ∈ st.map Prod.fst) →
      (lookupStat (distributeAux t per rem i l st) p).map (fun v => v.aircraft_type)
        = (lookupStat st p).map (fun v => v.aircraft_type) := by
  intro l
  induction l with
  | nil => intro i st _; rfl
  | cons q ps ih =>
    intro i st hsub
    simp only [distributeAux]
    have hq : q ∈ st.map Prod.fst := hsub q (List.mem_cons_self _ _)
    have hkeys : (addMissiles st q (per + if i < rem then 1 else 0) t).map Prod.fst
        = st.map Prod.fst := addMissiles_map_fst_of_mem st _ t hq
    rw [ih (i + 1) _ (fun r hr => by
      rw [hkeys]
      exact hsub r (List.mem_cons_of_mem _ hr))]
    exact lookupStat_addMissiles_at st q _ t p hq

theorem estimate_lookup_at (st : Stats) (a2a : List ObjRecord) (p : String) :
    (lookupStat (estimateMissileUsage st a2a) p).map (fun v => v.aircraft_type)
      = (lookupStat st p).map (fun v => v.aircraft_type) := by
  have h := estimate_pres st a2a (fun s =>
    s.map Prod.fst = st.map Prod.fst ∧
    (lookupStat s p).map (fun v => v.aircraft_type)
      = (lookupStat st p).map (fun v => v.aircraft_type))
    (fun acc c t n _ h => by
      dsimp only at h ⊢
      have hsub : ∀ q ∈ (pilotsOfCoalition st c).filter
          (fun r => canCarryMissile (aircraftTypeOf st r) t), q ∈ acc.map Prod.fst := by
        intro q hqin
        rw [h.1]
        exact pilotsOfCoalition_sub st c q (List.mem_filter.mp hqin).1
      refine ⟨?_, ?_⟩
      · rw [distribute_keys _ t n hsub, h.1]
      · unfold distribute
        rw [lookupStat_distributeAux_at t _ _ p _ 0 acc hsub, h.2]) ⟨rfl, rfl⟩
  exact h.2

/-! ## Claim theorems -/

/-- C1: for every (coalition, munition-type) group with `K ≥ 1` eligible
capable pilots and `N` unattributed munitions, the apportionment step adds
counts summing exactly to `N`: each pilot receives `N div K`, and exactly the
first `N mod K` pilots in the eligible ordering receive one additional unit. -/
theorem claim_C1_apportionment_exact (st : Stats) (capable : List String)
    (mtype : String) (count : ℕ) (hK : capable ≠ []) (hnd : capable.Nodup) :
    totalFired (distribute st capable mtype count) = totalFired st + count ∧
    ∀ (i : ℕ) (hi : i < capable.length),
      firedOf (distribute st capable mtype count) (capable.get ⟨i, hi⟩)
        = firedOf st (capable.get ⟨i, hi⟩) + count / capable.length
          + (if i < count % capable.length then 1 else 0) := by
  refine ⟨totalFired_distribute st capable mtype count hK, ?_⟩
  intro i hi
  unfold distribute
  rw [firedOf_distributeAux_get mtype _ _ capable 0 st hnd i hi]
  simp

theorem claim_C1_witness :
    totalFired (distribute wit1St ["A", "B"] "AIM_120C" 5) = totalFired wit1St + 5 :=
  (claim_C1_apportionment_exact wit1St ["A", "B"] "AIM_120C" 5 (by decide)
    (by decide)).1

/-- C4 (counterexample): with two eligible pilots "A" and "B", A < B in
lexicographic order but "B" first seen in the aircraft list, the two extra
units of the five-munition group go to "B", not to "A" — the claimed
lexicographic remainder order does not hold. -/
theorem claim_C4_counterexample :
    "A" < "B" ∧
    firedOf (analyzeCombatData cex4Alive cex4Removed) "A" = 2 ∧
    firedOf (analyzeCombatData cex4Alive cex4Removed) "B" = 3 := by
  refine ⟨?_, by decide, by decide⟩
  simp
  decide

/-- C4 (amended): the `N mod K` extra units go to the pilots earliest in the
eligible list, which follows first-seen order in the session's aircraft
records; when "A" is seen before "B", "A" receives 3 of 5 and "B" receives 2. -/
theorem claim_C4_first_seen_order :
    firedOf (analyzeCombatData sc4Alive cex4Removed) "A" = 3 ∧
    firedOf (analyzeCombatData sc4Alive cex4Removed) "B" = 2 := by
  refine ⟨by decide, by decide⟩

/-- C5: a pilot's deaths equal the exact number of Removed aircraft records
bearing that pilot's name, independent of the hit rate and every attribution
heuristic (the attribution and kill-estimation stages preserve the count that
the pilot-analysis stage established from the Removed set alone). -/
theorem claim_C5_death_ground_truth (alive removed : List ObjRecord) (p : String) :
    deathsOf (analyzeCombatData alive removed) p
      = ((removed.filter isPlane).filter (fun o => getPilot o == some p)).length := by
  unfold analyzeCombatData attributionStats
  rw [deathsOf_calcKill, deathsOf_estimate, deathsOf_analyzePilots]

/-- C9: a munition record that is still Alive at session end takes no part in
the analysis: inserting it anywhere into the alive set leaves every pilot's
statistics (hence every missilesFired value and coalition total) unchanged. -/
theorem claim_C9_alive_missiles_ignored (alive1 alive2 removed : List ObjRecord)
    (m : ObjRecord) (hm : m.kind = ObjKind.missile) :
    analyzeCombatData (alive1 ++ m :: alive2) removed
      = analyzeCombatData (alive1 ++ alive2) removed := by
  have hfilter : (alive1 ++ m :: alive2).filter isPlane
      = (alive1 ++ alive2).filter isPlane := by
    simp [List.filter_append, List.filter_cons, isPlane, hm]
  unfold analyzeCombatData attributionStats
  rw [hfilter]

theorem claim_C9_witness :
    analyzeCombatData (witAlive ++ mkMissile "x1" "AIM_120C" "Allies" :: []) witRemoved
      = analyzeCombatData (witAlive ++ []) witRemoved :=
  claim_C9_alive_missiles_ignored witAlive [] witRemoved
    (mkMissile "x1" "AIM_120C" "Allies") rfl

/-- C2: for every pilot with `missilesFired > 0`, the final kill count equals
`max(0, min(floor(missilesFired*h), floor(enemyLosses*share)))` with
`h = 3/10` and `share = missilesFired / coalitionTotal` in exact arithmetic;
in particular `enemyLosses = 0` forces zero kills. -/
theorem claim_C2_kill_formula (alive removed : List ObjRecord) (p : String)
    (e : PilotStats) (hmem : (p, e) ∈ analyzeCombatData alive removed)
    (hm : 0 < e.missiles_fired) :
    ((e.air_to_air_kills : ℤ)
      = specKillEstimate e.missiles_fired
          (coalitionTotalFired (analyzeCombatData alive removed) e.coalition)
          (coalitionLosses (removed.filter isPlane) (enemyOf e.coalition)) hitRate)
    ∧ (coalitionLosses (removed.filter isPlane) (enemyOf e.coalition) = 0
        → e.air_to_air_kills = 0) := by
  rcases mem_analyzeCombatData hmem with ⟨f, hf, hef⟩
  have hzero := attributionStats_zero_kr alive removed (p, f) hf
  have hchar := @killUpdate_kills_char _ (removed.filter isPlane) _ _ hf hzero.1
  have hmain : (e.air_to_air_kills : ℤ)
      = specKillEstimate e.missiles_fired
          (coalitionTotalFired (analyzeCombatData alive removed) e.coalition)
          (coalitionLosses (removed.filter isPlane) (enemyOf e.coalition)) hitRate := by
    rw [coalitionTotalFired_final]
    have hfm : e.missiles_fired = f.missiles_fired := by
      rw [hef]
      exact (killUpdate_pres _ _ f).1
    have hfc : e.coalition = f.coalition := by
      rw [hef]
      exact (killUpdate_pres _ _ f).2.1
    rw [hfm, hfc, hef]
    exact hchar
  refine ⟨hmain, fun hL0 => ?_⟩
  rw [hL0] at hmain
  have h2 : specKillEstimate e.missiles_fired
      (coalitionTotalFired (analyzeCombatData alive removed) e.coalition) 0 hitRate
      = 0 := by
    unfold specKillEstimate
    rw [Nat.cast_zero, zero_mul, Int.floor_zero]
    exact max_eq_left (min_le_right _ 0)
  rw [h2] at hmain
  exact_mod_cast hmain

theorem claim_C2_witness :
    ("W", witW) ∈ analyzeCombatData witAlive witRemoved ∧
    0 < witW.missiles_fired ∧
    ((witW.air_to_air_kills : ℤ)
      = specKillEstimate witW.missiles_fired
          (coalitionTotalFired (analyzeCombatData witAlive witRemoved) witW.coalition)
          (coalitionLosses (witRemoved.filter isPlane) (enemyOf witW.coalition))
          hitRate) :=
  ⟨by decide, by decide,
    (claim_C2_kill_formula witAlive witRemoved "W" witW (by decide) (by decide)).1⟩

/-- C3 (amended, proved for the improved analyzer): after analysis every
pilot satisfies `0 ≤ airToAirKills ≤ missilesFired`, and `airToAirKills`
never exceeds `floor(enemyLosses * share)`.  (The legacy analyzer violates
the share bound; see the counterexample.) -/
theorem claim_C3_kill_bounds (alive removed : List ObjRecord) (p : String)
    (e : PilotStats) (hmem : (p, e) ∈ analyzeCombatData alive removed) :
    e.air_to_air_kills ≤ e.missiles_fired ∧
    ((e.air_to_air_kills : ℤ) ≤ Int.floor
      ((coalitionLosses (removed.filter isPlane) (enemyOf e.coalition) : ℚ)
        * ((e.missiles_fired : ℚ)
          / (coalitionTotalFired (analyzeCombatData alive removed) e.coalition : ℚ)))) := by
  rcases mem_analyzeCombatData hmem with ⟨f, hf, hef⟩
  have hzero := attributionStats_zero_kr alive removed (p, f) hf
  have hchar := @killUpdate_kills_char _ (removed.filter isPlane) _ _ hf hzero.1
  have hmain : (e.air_to_air_kills : ℤ)
      = specKillEstimate e.missiles_fired
          (coalitionTotalFired (analyzeCombatData alive removed) e.coalition)
          (coalitionLosses (removed.filter isPlane) (enemyOf e.coalition)) hitRate := by
    rw [coalitionTotalFired_final]
    have hfm : e.missiles_fired = f.missiles_fired := by
      rw [hef]
      exact (killUpdate_pres _ _ f).1
    have hfc : e.coalition = f.coalition := by
      rw [hef]
      exact (killUpdate_pres _ _ f).2.1
    rw [hfm, hfc, hef]
    exact hchar
  have hA0 : (0 : ℤ) ≤ Int.floor ((e.missiles_fired : ℚ) * hitRate) := by
    rw [← natDiv_cast_eq_floorA]
    exact Int.natCast_nonneg _
  have hB0 : (0 : ℤ) ≤ Int.floor
      ((coalitionLosses (removed.filter isPlane) (enemyOf e.coalition) : ℚ)
        * ((e.missiles_fired : ℚ)
          / (coalitionTotalFired (analyzeCombatData alive removed) e.coalition : ℚ))) :=
    Int.floor_nonneg.mpr (mul_nonneg (Nat.cast_nonneg _)
      (div_nonneg (Nat.cast_nonneg _) (Nat.cast_nonneg _)))
  constructor
  · have hAm : Int.floor ((e.missiles_fired : ℚ) * hitRate)
        ≤ (e.missiles_fired : ℤ) := by
      rw [← natDiv_cast_eq_floorA]
      have h1 : (e.missiles_fired * 3) / 10 ≤ e.missiles_fired := by omega
      exact_mod_cast h1
    have : (e.air_to_air_kills : ℤ) ≤ (e.missiles_fired : ℤ) := by
      rw [hmain]
      unfold specKillEstimate
      have h2 : max 0 (min (Int.floor ((e.missiles_fired : ℚ) * hitRate))
          (Int.floor ((coalitionLosses (removed.filter isPlane)
              (enemyOf e.coalition) : ℚ)
            * ((e.missiles_fired : ℚ)
              / (coalitionTotalFired (analyzeCombatData alive removed)
                  e.coalition : ℚ)))))
          ≤ Int.floor ((e.missiles_fired : ℚ) * hitRate) :=
        max_le hA0 (min_le_left _ _)
      exact le_trans h2 hAm
    exact_mod_cast this
  · rw [hmain]
    unfold specKillEstimate
    exact max_le hB0 (min_le_right _ _)

/-- C3 (counterexample): in the legacy analyzer, with two Allies pilots
firing four parent-attributed missiles each and one Enemies aircraft lost,
pilot "P1" is credited one kill although `floor(enemyLosses * share) = 0`. -/
theorem claim_C3_counterexample :
    legacyFiredOf (legacyAnalyze cex3Alive cex3Removed) "P1" = 4 ∧
    legacyKillsOf (legacyAnalyze cex3Alive cex3Removed) "P1" = 1 ∧
    coalitionLosses (cex3Removed.filter isPlane) (enemyOf "Allies") = 1 ∧
    legacyCoalitionTotal (legacyAnalyze cex3Alive cex3Removed) "Allies" = 8 ∧
    ¬ ((legacyKillsOf (legacyAnalyze cex3Alive cex3Removed) "P1" : ℤ)
        ≤ Int.floor ((coalitionLosses (cex3Removed.filter isPlane)
              (enemyOf "Allies") : ℚ)
          * ((legacyFiredOf (legacyAnalyze cex3Alive cex3Removed) "P1" : ℚ)
            / (legacyCoalitionTotal (legacyAnalyze cex3Alive cex3Removed)
                "Allies" : ℚ)))) := by
  have h1 : legacyFiredOf (legacyAnalyze cex3Alive cex3Removed) "P1" = 4 := by
    decide
  have h2 : legacyKillsOf (legacyAnalyze cex3Alive cex3Removed) "P1" = 1 := by
    decide
  have h3 : coalitionLosses (cex3Removed.filter isPlane) (enemyOf "Allies") = 1 := by
    decide
  have h4 : legacyCoalitionTotal (legacyAnalyze cex3Alive cex3Removed) "Allies" = 8 := by
    decide
  refine ⟨h1, h2, h3, h4, ?_⟩
  rw [h1, h2, h3, h4, ← natDiv_cast_eq_floorB 1 4 8]
  decide

theorem claim_C3_witness :
    ("W", witW) ∈ analyzeCombatData witAlive witRemoved ∧
    witW.air_to_air_kills ≤ witW.missiles_fired :=
  ⟨by decide, (claim_C3_kill_bounds witAlive witRemoved "W" witW (by decide)).1⟩

/-- C8 (amended): after analysis, `estimated_hit_rate` equals the constant
`h = 3/10` exactly for pilots with `missilesFired > 0` whose enemy coalition
lost at least one aircraft; for every other pilot (including pilots with
`missilesFired > 0` but zero enemy losses) it remains `0.0`. -/
theorem claim_C8_hit_rate (alive removed : List ObjRecord) (p : String)
    (e : PilotStats) (hmem : (p, e) ∈ analyzeCombatData alive removed) :
    e.estimated_hit_rate
      = if 0 < e.missiles_fired
          ∧ 0 < coalitionLosses (removed.filter isPlane) (enemyOf e.coalition)
        then hitRate else 0 := by
  rcases mem_analyzeCombatData hmem with ⟨f, hf, hef⟩
  have hzero := attributionStats_zero_kr alive removed (p, f) hf
  have hrate := @killUpdate_rate_char _ (removed.filter isPlane) _ _ hf
  rw [hef]
  rw [(killUpdate_pres (attributionStats alive removed) (removed.filter isPlane) f).1,
    (killUpdate_pres (attributionStats alive removed) (removed.filter isPlane) f).2.1]
  rw [hrate, hzero.2]

/-- C8 (counterexample): pilot "R" fired one missile but the opposing
coalition lost no aircraft, so `estimated_hit_rate` stays `0.0`, not the
claimed constant `h = 3/10`. -/
theorem claim_C8_counterexample :
    firedOf (analyzeCombatData cex8Alive cex8Removed) "R" = 1 ∧
    rateOf (analyzeCombatData cex8Alive cex8Removed) "R" = 0 ∧
    (0 : ℚ) ≠ hitRate := by
  refine ⟨by decide, by decide, by decide⟩

theorem claim_C8_witness :
    ("W", witW) ∈ analyzeCombatData witAlive witRemoved ∧
    witW.estimated_hit_rate
      = if 0 < witW.missiles_fired
          ∧ 0 < coalitionLosses (witRemoved.filter isPlane) (enemyOf witW.coalition)
        then hitRate else 0 :=
  ⟨by decide, claim_C8_hit_rate witAlive witRemoved "W" witW (by decide)⟩

/-- C10: a pilot whose aircraft type matches no entry of the fighter list
finishes with zero missilesFired, zero airToAirKills and an empty
munitionTypesUsed set: apportionment never touches such a pilot and the
kill-estimation step skips pilots without missiles. -/
theorem claim_C10_non_fighters_zero (alive removed : List ObjRecord) (p : String)
    (e : PilotStats) (hmem : (p, e) ∈ analyzeCombatData alive removed)
    (hnf : isFighterAircraft e.aircraft_type = false) :
    e.missiles_fired = 0 ∧ e.air_to_air_kills = 0 ∧ e.missile_types_used = [] := by
  rcases mem_analyzeCombatData hmem with ⟨f, hf, hef⟩
  have hat : e.aircraft_type = f.aircraft_type := by
    rw [hef]
    exact (killUpdate_pres _ _ f).2.2.2.1
  have hnd2 : ((attributionStats alive removed).map Prod.fst).Nodup :=
    attributionStats_nodup alive removed
  have hlk2 : lookupStat (attributionStats alive removed) p = some f :=
    mem_lookupStat_of_nodup hnd2 hf
  have hkeys : (attributionStats alive removed).map Prod.fst
      = (analyzePilots (alive.filter isPlane) (removed.filter isPlane)).map Prod.fst := by
    unfold attributionStats
    exact estimate_keys _ _
  have hpk : p ∈ (analyzePilots (alive.filter isPlane)
      (removed.filter isPlane)).map Prod.fst := by
    rw [← hkeys]
    exact List.mem_map.mpr ⟨(p, f), hf, rfl⟩
  obtain ⟨u, hu⟩ : ∃ u, lookupStat (analyzePilots (alive.filter isPlane)
      (removed.filter isPlane)) p = some u := by
    cases hl : lookupStat (analyzePilots (alive.filter isPlane)
        (removed.filter isPlane)) p with
    | none => exact absurd hpk ((lookupStat_eq_none_iff _ p).mp hl)
    | some u => exact ⟨u, rfl⟩
  have hnd1 : ((analyzePilots (alive.filter isPlane)
      (removed.filter isPlane)).map Prod.fst).Nodup := analyzePilots_nodup _ _
  -- the aircraft type recorded at the pilot-analysis stage equals e's
  have hatu : f.aircraft_type = u.aircraft_type := by
    have h1 := estimate_lookup_at (analyzePilots (alive.filter isPlane)
      (removed.filter isPlane))
      (((removed.filter isMissileObj).filter isAirToAirMissile)) p
    have h2 : lookupStat (attributionStats alive removed) p
        = lookupStat (estimateMissileUsage (analyzePilots (alive.filter isPlane)
            (removed.filter isPlane))
          (((removed.filter isMissileObj).filter isAirToAirMissile))) p := rfl
    rw [← h2, hlk2, hu] at h1
    simpa using h1
  have hnfu : isFighterAircraft u.aircraft_type = false := by
    rw [← hatu, ← hat]
    exact hnf
  have hnp : ∀ c, p ∉ pilotsOfCoalition (analyzePilots (alive.filter isPlane)
      (removed.filter isPlane)) c := by
    intro c hpc
    unfold pilotsOfCoalition at hpc
    rcases List.mem_map.mp hpc with ⟨ent, hent, hfst⟩
    have hin := (List.mem_filter.mp hent).1
    have hcond := (List.mem_filter.mp hent).2
    have : lookupStat (analyzePilots (alive.filter isPlane)
        (removed.filter isPlane)) p = some ent.2 := by
      apply mem_lookupStat_of_nodup hnd1
      rw [← hfst]
      exact hin
    rw [hu] at this
    have hue : ent.2 = u := by
      injection this with h
      exact h.symm
    rw [hue] at hcond
    rw [hnfu] at hcond
    simp at hcond
  have huntouched : lookupStat (attributionStats alive removed) p
      = lookupStat (analyzePilots (alive.filter isPlane)
          (removed.filter isPlane)) p := by
    unfold attributionStats
    exact estimate_lookup_untouched _ _ hnp
  rw [hlk2, hu] at huntouched
  have hfu : f = u := by injection huntouched with h
  have hufresh : FreshAttrib u :=
    analyzePilots_fresh _ _ (p, u) (lookupStat_some_mem hu)
  have hf0 : f.missiles_fired = 0 := by rw [hfu]; exact hufresh.1
  have hefe : e = f := by
    rw [hef]
    exact killUpdate_of_fired_zero _ _ hf0
  rw [hefe, hfu]
  exact ⟨hufresh.1, hufresh.2.1, hufresh.2.2.1⟩

theorem claim_C10_witness :
    ("P", witP) ∈ analyzeCombatData cex6Alive cex6Removed ∧
    isFighterAircraft witP.aircraft_type = false ∧
    (witP.missiles_fired = 0 ∧ witP.air_to_air_kills = 0 ∧
      witP.missile_types_used = []) :=
  ⟨by decide, by decide,
    claim_C10_non_fighters_zero cex6Alive cex6Removed "P" witP (by decide) (by decide)⟩

/-- C7 (amended): every string recorded in a pilot's `missile_types_used` is
the raw `Name` designator of some removed air-to-air munition of the session
— the code records the munition's type string, not its family label. -/
theorem claim_C7_types_are_raw_names (alive removed : List ObjRecord)
    (p : String) (e : PilotStats)
    (hmem : (p, e) ∈ analyzeCombatData alive removed) :
    ∀ t ∈ e.missile_types_used,
      ∃ m ∈ removed, isMissileObj m = true ∧ isAirToAirMissile m = true
        ∧ m.name = t := by
  rcases mem_analyzeCombatData hmem with ⟨f, hf, hef⟩
  have htypes : e.missile_types_used = f.missile_types_used := by
    rw [hef]
    exact (killUpdate_pres _ _ f).2.2.2.2.1
  have hprov : ∀ x ∈ f.missile_types_used,
      x ∈ ((removed.filter isMissileObj).filter isAirToAirMissile).map
        (fun m => m.name) := by
    have hstart : ∀ ent ∈ analyzePilots (alive.filter isPlane)
        (removed.filter isPlane), ∀ x ∈ ent.2.missile_types_used,
        x ∈ ((removed.filter isMissileObj).filter isAirToAirMissile).map
          (fun m => m.name) := by
      intro ent hent x hx
      have := (analyzePilots_fresh _ _ ent hent).2.2.1
      rw [this] at hx
      simp at hx
    exact fun x hx => estimate_types_from _ _ hstart (p, f) hf x hx
  intro t ht
  rw [htypes] at ht
  rcases List.mem_map.mp (hprov t ht) with ⟨m, hm, hname⟩
  have h1 := List.mem_filter.mp hm
  have h2 := List.mem_filter.mp h1.1
  exact ⟨m, h2.1, h2.2, h1.2, hname⟩

/-- C7 (counterexample): an AIM-9M munition is credited to pilot "Q", yet
the recorded munition-type entry is the raw designator "AIM-9M", not the
family label "Sidewinder" that the classifier table assigns to it. -/
theorem claim_C7_counterexample :
    firedOf (analyzeCombatData cex7Alive cex7Removed) "Q" = 1 ∧
    typesOf (analyzeCombatData cex7Alive cex7Removed) "Q" = ["AIM-9M"] ∧
    List.lookup "AIM-9M" airToAirMissiles = some "Sidewinder" ∧
    "Sidewinder" ∉ typesOf (analyzeCombatData cex7Alive cex7Removed) "Q" := by
  refine ⟨by decide, by decide, by decide, by decide⟩

theorem claim_C7_witness :
    ("Q", witQ7) ∈ analyzeCombatData cex7Alive cex7Removed ∧
    (∃ m ∈ cex7Removed, isMissileObj m = true ∧ isAirToAirMissile m = true
      ∧ m.name = "AIM-9M") :=
  ⟨by decide,
    claim_C7_types_are_raw_names cex7Alive cex7Removed "Q" witQ7 (by decide)
      "AIM-9M" (by decide)⟩

theorem totalFired_analyzePilots_zero (a r : List ObjRecord) :
    totalFired (analyzePilots a r) = 0 := by
  unfold totalFired
  apply List.sum_eq_zero
  intro x hx
  rcases List.mem_map.mp hx with ⟨ent, hent, hx2⟩
  rw [← hx2]
  exact (analyzePilots_fresh a r ent hent).1

theorem length_filter_partition {α : Type} (p : α → Bool) (l : List α) :
    (l.filter p).length + (l.filter (fun x => !p x)).length = l.length := by
  induction l with
  | nil => rfl
  | cons x xs ih =>
    by_cases hx : p x
    · simp only [List.filter_cons, hx, Bool.not_true, if_pos, if_neg]
      simp [hx]
      omega
    · simp only [List.filter_cons]
      simp [hx]
      omega

/-- C6 (amended): munitions whose family is unresolved and munitions in
groups with no eligible capable pilot are excluded from every pilot's
`missilesFired`; their exact count is `specUnattributedCount`, and total
attributed plus unattributed always equals the number of removed munitions —
but the program itself keeps no such unattributed tally (see the
counterexample: no output quantity reflects it). -/
theorem claim_C6_conservation (alive removed : List ObjRecord) :
    totalFired (analyzeCombatData alive removed)
        + specUnattributedCount alive removed
      = (removed.filter isMissileObj).length := by
  unfold analyzeCombatData
  rw [totalFired_calcKill]
  unfold attributionStats
  rw [estimate_total, totalFired_analyzePilots_zero, Nat.zero_add]
  unfold specUnattributedCount
  dsimp only
  have hpartition :
      (((removed.filter isMissileObj).filter isAirToAirMissile)).length
        + ((removed.filter isMissileObj).filter (fun m => !isAirToAirMissile m)).length
      = (removed.filter isMissileObj).length :=
    length_filter_partition isAirToAirMissile (removed.filter isMissileObj)
  have hgroups : attributableSum
        (analyzePilots (alive.filter isPlane) (removed.filter isPlane))
        ((removed.filter isMissileObj).filter isAirToAirMissile)
      + (((groupByKey (fun m => m.coalition)
            ((removed.filter isMissileObj).filter isAirToAirMissile))).map (fun cms =>
          ((groupCounts (fun m => m.name) cms.2).map (fun tc =>
            if ((pilotsOfCoalition (analyzePilots (alive.filter isPlane)
                  (removed.filter isPlane)) cms.1).filter
                (fun p => canCarryMissile (aircraftTypeOf (analyzePilots
                  (alive.filter isPlane) (removed.filter isPlane)) p) tc.1)).isEmpty
            then tc.2 else 0)).sum)).sum
      = (((removed.filter isMissileObj).filter isAirToAirMissile)).length := by
    unfold attributableSum
    rw [← sum_map_add]
    have hpoint : ∀ cms ∈ groupByKey (fun m => m.coalition)
        ((removed.filter isMissileObj).filter isAirToAirMissile),
        ((if (pilotsOfCoalition (analyzePilots (alive.filter isPlane)
              (removed.filter isPlane)) cms.1).isEmpty then 0 else
          ((groupCounts (fun m => m.name) cms.2).map (fun tc =>
            if ((pilotsOfCoalition (analyzePilots (alive.filter isPlane)
                  (removed.filter isPlane)) cms.1).filter
                (fun p => canCarryMissile (aircraftTypeOf (analyzePilots
                  (alive.filter isPlane) (removed.filter isPlane)) p) tc.1)).isEmpty
            then 0 else tc.2)).sum)
        + ((groupCounts (fun m => m.name) cms.2).map (fun tc =>
            if ((pilotsOfCoalition (analyzePilots (alive.filter isPlane)
                  (removed.filter isPlane)) cms.1).filter
                (fun p => canCarryMissile (aircraftTypeOf (analyzePilots
                  (alive.filter isPlane) (removed.filter isPlane)) p) tc.1)).isEmpty
            then tc.2 else 0)).sum)
        = cms.2.length := by
      intro cms _
      by_cases hp : (pilotsOfCoalition (analyzePilots (alive.filter isPlane)
          (removed.filter isPlane)) cms.1).isEmpty
      · rw [if_pos hp, Nat.zero_add]
        have hpe : pilotsOfCoalition (analyzePilots (alive.filter isPlane)
            (removed.filter isPlane)) cms.1 = [] := by
          cases hc : pilotsOfCoalition (analyzePilots (alive.filter isPlane)
              (removed.filter isPlane)) cms.1 with
          | nil => rfl
          | cons a l =>
            rw [hc] at hp
            simp [List.isEmpty] at hp
        rw [List.map_congr_left (fun tc _ => by rw [hpe]; rfl :
          ∀ tc ∈ groupCounts (fun m => m.name) cms.2, _ = tc.2)]
        exact sum_groupCounts _ _
      · rw [if_neg hp, ← sum_map_add]
        rw [List.map_congr_left (fun tc _ => by
          by_cases hc : ((pilotsOfCoalition (analyzePilots (alive.filter isPlane)
              (removed.filter isPlane)) cms.1).filter
              (fun p => canCarryMissile (aircraftTypeOf (analyzePilots
                (alive.filter isPlane) (removed.filter isPlane)) p) tc.1)).isEmpty
          · rw [if_pos hc, if_pos hc]
            omega
          · rw [if_neg hc, if_neg hc]
            omega :
          ∀ tc ∈ groupCounts (fun m => m.name) cms.2, _ = tc.2)]
        exact sum_groupCounts _ _
    rw [List.map_congr_left hpoint]
    exact sum_groupByKey_lengths _ _
  omega

/-- C6 (counterexample): five Blue munitions have no eligible pilot; the
spec-level unattributed count is 5, yet no numeric quantity the program
prints or exports for this session equals 5 — the munitions are silently
dropped. -/
theorem claim_C6_counterexample :
    specUnattributedCount cex6Alive cex6Removed = 5 ∧
    (5 : ℚ) ∉ outputNumbersQ cex6Alive cex6Removed := by
  refine ⟨by decide, by decide⟩
